import Mathlib

/-!
Verification development for the N-token stable-swap pool program
(`src/processor.rs`, `src/instruction.rs`).

The repository ships only the dispatcher (`processor.rs`) and the wire
format (`instruction.rs`).  The leaf modules it links against
(`decimal.rs`, `pool_fee.rs`, `amp_factor.rs`, `invariant.rs`,
`state.rs`, `error.rs`, `common.rs`) are not in the source tree; where a
definition below stands in for one of those missing files it is marked
`Modelled from the spec:` and follows the specification text.  The
invariant solver is kept fully abstract (a parameter of the dispatcher):
every theorem about the dispatcher below holds for an arbitrary solver.

Ledger effects (token transfers, mints, burns) are reified as a list of
`Effect` values in program order; an operation either returns the
complete effect list together with the updated pool record, or an error
and no effects (the host aborts the whole transaction on error, spec
section 5).
-/

namespace Pool

/-- Error type of the engine.  Merges the program error enum
(`error.rs`, missing from the tree; names follow spec section 7) with
the host and token-program errors that `processor.rs` surfaces
(`ProgramError::...`, `TokenError::...`).  The two amp-factor
validation errors are `Modelled from the spec:` spec section 4.C
validates the target range and ramp duration but only names
`AmpJumpTooLarge`. -/
inductive PoolError where
  | invalidFeeInput
  | duplicateAccount
  | invalidMintAccount
  | invalidMintAuthority
  | mintHasBalance
  | mintHasFreezeAuthority
  | tokenAccountHasBalance
  | tokenAccountHasDelegate
  | tokenAccountHasCloseAuthority
  | invalidPoolAuthorityAccount
  | poolTokenAccountExpected
  | invalidGovernanceAccount
  | invalidGovernanceFeeAccount
  | missingRequiredSignature
  | illegalOwner
  | mintMismatch
  | ownerMismatch
  | uninitializedAccount
  | accountAlreadyInitialized
  | accountNotRentExempt
  | accountDataTooSmall
  | incorrectProgramId
  | invalidAccountData
  | poolIsPaused
  | invalidEnact
  | insufficientDelay
  | ampJumpTooLarge
  | numericOverflow
  | divByZero
  | didNotConverge
  | invalidInstructionData
  | maxDecimalDifferenceExceeded
  | addRequiresAllTokens
  | outsideSpecifiedLimits
  | invalidAmpFactorValue
  | invalidAmpFactorTimestamp
  deriving DecidableEq, Repr

/-- Modelled from the spec: `decimal.rs` (the `DecimalU64` type) is not
in the source tree.  Spec section 3: an unsigned 64-bit mantissa `m`
with a decimal point position `p` in `[0, 19]`, representing
`m / 10 ^ p`.  All arithmetic is checked. -/
structure Dec where
  m : Nat
  p : Nat
  deriving DecidableEq, Repr

/-- Two to the sixty-four: the mantissa bound of `DecimalU64`. -/
def u64Bound : Nat := 2 ^ 64

/-- Value-level order on decimals, by cross-multiplication. -/
def Dec.Le (a b : Dec) : Prop := a.m * 10 ^ b.p ≤ b.m * 10 ^ a.p

/-- Value-level strict order on decimals. -/
def Dec.Lt (a b : Dec) : Prop := a.m * 10 ^ b.p < b.m * 10 ^ a.p

instance (a b : Dec) : Decidable (Dec.Le a b) := by unfold Dec.Le; infer_instance

instance (a b : Dec) : Decidable (Dec.Lt a b) := by unfold Dec.Lt; infer_instance

/-- Value-level equality on decimals (the source compares values,
for example `governance_fee != DecT::from(0)`). -/
def Dec.Eqv (a b : Dec) : Prop := a.m * 10 ^ b.p = b.m * 10 ^ a.p

instance (a b : Dec) : Decidable (Dec.Eqv a b) := by unfold Dec.Eqv; infer_instance

/-- `DecT::from(n)`: an integer as a decimal. -/
def Dec.ofNat (n : Nat) : Dec := ⟨n, 0⟩

/-- The decimal one. -/
def Dec.one : Dec := ⟨1, 0⟩

/-- The decimal zero. -/
def Dec.zero : Dec := ⟨0, 0⟩

/-- Modelled from the spec: multiplication truncates the lowest decimal
digits of the mantissa until it fits 64 bits again ("saturating
truncation of mantissa to fit 64 bits", spec section 3); if the value
cannot fit even as an integer the mantissa saturates. -/
def Dec.truncFit (m p : Nat) : Dec :=
  if m < u64Bound then ⟨m, p⟩
  else
    match p with
    | 0 => ⟨u64Bound - 1, 0⟩
    | q + 1 => Dec.truncFit (m / 10) q

/-- Modelled from the spec: checked addition aligns the decimal points
to the larger one and fails with `NumericOverflow` if a scaled mantissa
or the sum leaves 64 bits (spec section 3). -/
def Dec.add (a b : Dec) : Except PoolError Dec :=
  let p := max a.p b.p
  let ma := a.m * 10 ^ (p - a.p)
  let mb := b.m * 10 ^ (p - b.p)
  if ma < u64Bound ∧ mb < u64Bound ∧ ma + mb < u64Bound then Except.ok ⟨ma + mb, p⟩
  else Except.error PoolError.numericOverflow

/-- Multiplication of a decimal by a `u64` (the source forms
`pool_balances[i] * user_share` and `user_share * 10u64.pow(18)`). -/
def Dec.mulNat (a : Dec) (k : Nat) : Dec := Dec.truncFit (a.m * k) a.p

/-- `trunc`: floor of the represented value. -/
def Dec.trunc (a : Dec) : Nat := a.m / 10 ^ a.p

/-- Largest extra precision `e` with `q + e ≤ 19` whose scaled quotient
mantissa still fits 64 bits; searched downward from the given bound. -/
def Dec.divExtra (e a b q : Nat) : Nat :=
  match e with
  | 0 => 0
  | f + 1 => if q + (f + 1) ≤ 19 ∧ a * 10 ^ (f + 1) / b < u64Bound then f + 1 else Dec.divExtra f a b q

/-- Modelled from the spec: checked division of a decimal by a `u64`
computes the most significant 64 bits of the infinite quotient (at most
19 decimal places) and fails with `DivByZero` on a zero divisor (spec
sections 3 and 4.A). -/
def Dec.divNat (a : Dec) (b : Nat) : Except PoolError Dec :=
  if b = 0 then Except.error PoolError.divByZero
  else
    let e := Dec.divExtra 19 a.m b a.p
    Except.ok ⟨a.m * 10 ^ e / b, a.p + e⟩

/-- Modelled from the spec: `pool_fee.rs` is not in the source tree.
Spec section 4.D: a validated fractional fee strictly below one. -/
structure PoolFee where
  fee : Dec
  deriving DecidableEq, Repr

/-- Modelled from the spec: constructing a `PoolFee` validates
`fee < 1`, failing with `InvalidFeeInput` otherwise. -/
def PoolFee.new (d : Dec) : Except PoolError PoolFee :=
  if Dec.Lt d Dec.one then Except.ok ⟨d⟩ else Except.error PoolError.invalidFeeInput

/-- `PoolFee::default()`: the zero fee. -/
def PoolFee.default : PoolFee := ⟨Dec.zero⟩

/-- `PoolFee::get()`. -/
def PoolFee.get (f : PoolFee) : Dec := f.fee

/-- Modelled from the spec: `amp_factor.rs` is not in the source tree.
Spec sections 3 and 4.C: a piecewise-linear ramp between
`(initial_ts, initial_value)` and `(target_ts, target_value)`. -/
structure AmpFactor where
  initial_value : Dec
  initial_ts : Int
  target_value : Dec
  target_ts : Int
  deriving DecidableEq, Repr

/-- Lower bound of the valid amp range (spec section 3). -/
def ampMin : Dec := ⟨1, 0⟩

/-- Upper bound of the valid amp range (spec section 3). -/
def ampMax : Dec := ⟨1000000, 0⟩

/-- Modelled from the spec: constructing an amp factor validates the
value into `[1, 10^6]` (spec section 3); a fresh factor is constant. -/
def AmpFactor.new (v : Dec) : Except PoolError AmpFactor :=
  if Dec.Le ampMin v ∧ Dec.Le v ampMax then Except.ok ⟨v, 0, v, 0⟩
  else Except.error PoolError.invalidAmpFactorValue

/-- Value-preserving subtraction used by the ramp interpolation
(alignment to the larger point, saturating at zero). -/
def Dec.sub (a b : Dec) : Dec :=
  let p := max a.p b.p
  ⟨a.m * 10 ^ (p - a.p) - b.m * 10 ^ (p - b.p), p⟩

/-- Decimal-by-decimal multiplication with mantissa truncation
(spec section 3). -/
def Dec.mul (a b : Dec) : Dec := Dec.truncFit (a.m * b.m) (a.p + b.p)

/-- Addition variant used inside the ramp interpolation where the
result is known to be in range (truncating instead of failing). -/
def Dec.addT (a b : Dec) : Dec :=
  let p := max a.p b.p
  Dec.truncFit (a.m * 10 ^ (p - a.p) + b.m * 10 ^ (p - b.p)) p

/-- Modelled from the spec: `A(t)` clamps to the endpoints outside the
ramp window and interpolates linearly inside it (spec section 4.C). -/
def AmpFactor.get (a : AmpFactor) (t : Int) : Dec :=
  if t ≥ a.target_ts then a.target_value
  else if t ≤ a.initial_ts then a.initial_value
  else
    match Dec.divNat (Dec.ofNat (t - a.initial_ts).toNat) (a.target_ts - a.initial_ts).toNat with
    | Except.error _ => a.initial_value
    | Except.ok r =>
      if Dec.Le a.initial_value a.target_value then
        Dec.addT a.initial_value (Dec.mul (Dec.sub a.target_value a.initial_value) r)
      else
        Dec.sub a.initial_value (Dec.mul (Dec.sub a.initial_value a.target_value) r)

/-- Minimum ramp duration, one day (spec section 4.C). -/
def MIN_RAMP_DURATION : Int := 86400

/-- Maximum ratio between the instantaneous amp and a new target
(spec section 4.C). -/
def MAX_RAMP_FACTOR : Nat := 10

/-- Modelled from the spec: retargeting the ramp validates the target
range, the minimum ramp duration, and the jump ratio, then restarts the
ramp from the instantaneous value (spec section 4.C). -/
def AmpFactor.set_target (a : AmpFactor) (now : Int) (target : Dec) (target_ts : Int) :
    Except PoolError AmpFactor :=
  if ¬(Dec.Le ampMin target ∧ Dec.Le target ampMax) then
    Except.error PoolError.invalidAmpFactorValue
  else if target_ts < now + MIN_RAMP_DURATION then
    Except.error PoolError.invalidAmpFactorTimestamp
  else
    let current := a.get now
    if Dec.Lt (Dec.mulNat target MAX_RAMP_FACTOR) current ∨
        Dec.Lt (Dec.mulNat current MAX_RAMP_FACTOR) target then
      Except.error PoolError.ampJumpTooLarge
    else Except.ok ⟨current, now, target, target_ts⟩

/-- The persistent pool record (`state.rs` is not in the tree; the
field list and order are read off the struct literal in
`process_init`, `processor.rs` lines 178-198, and spec section 3). -/
structure PoolState (n : Nat) where
  nonce : Nat
  is_paused : Bool
  amp_factor : AmpFactor
  lp_fee : PoolFee
  governance_fee : PoolFee
  lp_mint_key : Nat
  lp_decimal_equalizer : Nat
  token_mint_keys : Fin n → Nat
  token_decimal_equalizers : Fin n → Nat
  token_keys : Fin n → Nat
  governance_key : Nat
  governance_fee_key : Nat
  prepared_governance_key : Nat
  governance_transition_ts : Int
  prepared_lp_fee : PoolFee
  prepared_governance_fee : PoolFee
  fee_transition_ts : Int
  previous_depth : Nat

instance {n : Nat} : DecidableEq (PoolState n) := fun a b => by
  cases a; cases b
  exact decidable_of_iff _ (by constructor <;> (intro h; first | (cases h; constructor <;> rfl) | (simp only [PoolState.mk.injEq] at h ⊢; exact h)))

/-- One ledger effect, in program order: a user-to-pool transfer of
token `i`, a pool-to-user transfer of token `i`, an LP mint to the
user, an LP burn from the user, or an LP mint to the governance fee
account. -/
inductive Effect (n : Nat) where
  | transferIn (i : Fin n) (amount : Nat)
  | transferOut (i : Fin n) (amount : Nat)
  | mintUser (amount : Nat)
  | burnUser (amount : Nat)
  | mintGov (amount : Nat)
  deriving DecidableEq, Repr

/-- Whether an effect is a user-to-pool transfer. -/
def Effect.isTransferIn {n : Nat} : Effect n → Bool
  | Effect.transferIn _ _ => true
  | _ => false

/-- Whether an effect is a pool-to-user transfer. -/
def Effect.isTransferOut {n : Nat} : Effect n → Bool
  | Effect.transferOut _ _ => true
  | _ => false

/-- The DeFi instruction set (`instruction.rs` lines 81-191). -/
inductive DeFiInstruction (n : Nat) where
  | add (input_amounts : Fin n → Nat) (minimum_mint_amount : Nat)
  | swapExactInput (exact_input_amounts : Fin n → Nat) (output_token_index : Nat)
      (minimum_output_amount : Nat)
  | swapExactOutput (maximum_input_amount : Nat) (input_token_index : Nat)
      (exact_output_amounts : Fin n → Nat)
  | removeUniform (exact_burn_amount : Nat) (minimum_output_amounts : Fin n → Nat)
  | removeExactBurn (exact_burn_amount : Nat) (output_token_index : Nat)
      (minimum_output_amount : Nat)
  | removeExactOutput (maximum_burn_amount : Nat) (exact_output_amounts : Fin n → Nat)

/-- The `matches!(_, DeFiInstruction::RemoveUniform { .. })` test from
`processor.rs` line 214. -/
def DeFiInstruction.isRemoveUniform {n : Nat} : DeFiInstruction n → Bool
  | DeFiInstruction.removeUniform _ _ => true
  | _ => false

/-- The governance instruction set (`instruction.rs` lines 313-377).
Keys are modelled as naturals with zero for `Pubkey::default()`. -/
inductive GovernanceInstruction where
  | prepareFeeChange (lp_fee : Dec) (governance_fee : Dec)
  | enactFeeChange
  | prepareGovernanceTransition (upcoming_governance_key : Nat)
  | enactGovernanceTransition
  | changeGovernanceFeeAccount (governance_fee_key : Nat)
  | adjustAmpFactor (target_ts : Int) (target_value : Dec)
  | setPaused (paused : Bool)

/-- Top-level instruction (`instruction.rs` lines 16-36). -/
inductive PoolInstruction (n : Nat) where
  | init (nonce : Nat) (amp_factor : Dec) (lp_fee : Dec) (governance_fee : Dec)
  | defi (d : DeFiInstruction n)
  | governance (g : GovernanceInstruction)

/-- The invariant solver interface (`invariant.rs` is not in the source
tree).  Modelled from the spec: each entry point maps the equalized
amounts, the instantaneous amp, the two fee rates, the equalized LP
supply and the previous depth to
`(user_amount, governance_mint_amount, latest_depth)` or a numeric
error (spec section 4.B).  The dispatcher theorems below quantify over
an arbitrary inhabitant, so nothing is assumed about the solver. -/
structure Invariant (n : Nat) where
  add : (Fin n → Nat) → (Fin n → Nat) → Dec → Dec → Dec → Nat → Nat →
    Except PoolError (Nat × Nat × Nat)
  swap_exact_input : (Fin n → Nat) → Nat → (Fin n → Nat) → Dec → Dec → Dec → Nat → Nat →
    Except PoolError (Nat × Nat × Nat)
  swap_exact_output : Nat → (Fin n → Nat) → (Fin n → Nat) → Dec → Dec → Dec → Nat → Nat →
    Except PoolError (Nat × Nat × Nat)
  remove_exact_burn : Nat → Nat → (Fin n → Nat) → Dec → Dec → Dec → Nat → Nat →
    Except PoolError (Nat × Nat × Nat)
  remove_exact_output : (Fin n → Nat) → (Fin n → Nat) → Dec → Dec → Dec → Nat → Nat →
    Except PoolError (Nat × Nat × Nat)

/-- `to_equalized` (`processor.rs` lines 259-265). -/
def toEqualized (value equalizer : Nat) : Nat :=
  if equalizer > 0 then value * 10 ^ equalizer else value

/-- `from_equalized` (`processor.rs` lines 266-272): de-equalization
rounds half-up. -/
def fromEqualized (value equalizer : Nat) : Nat :=
  if equalizer > 0 then (value + 10 ^ (equalizer - 1) * 5) / 10 ^ equalizer else value

/-- Enact delay for governance transitions, three days
(`processor.rs` line 36). -/
def ENACT_DELAY : Int := 3 * 86400

/-- Accounts and ledger reads supplied to a DeFi instruction
(`processor.rs` lines 209-257).  Account unpacking is abstracted: the
context directly carries the keys the processor compares and the
balances and supply it reads. -/
structure DeFiCtx (n : Nat) where
  pool_authority_key : Nat
  derived_authority : Option Nat
  pool_token_keys : Fin n → Nat
  pool_balances : Fin n → Nat
  lp_mint_key : Nat
  lp_total_supply : Nat
  governance_fee_key : Nat

/-- All pre-dispatch account checks of a DeFi instruction pass
(`processor.rs` lines 218-249). -/
def DeFiCtx.Valid {n : Nat} (ctx : DeFiCtx n) (s : PoolState n) : Prop :=
  ctx.derived_authority = some ctx.pool_authority_key ∧
  (∀ i, ctx.pool_token_keys i = s.token_keys i) ∧
  ctx.lp_mint_key = s.lp_mint_key ∧
  ctx.governance_fee_key = s.governance_fee_key

instance {n : Nat} (ctx : DeFiCtx n) (s : PoolState n) : Decidable (ctx.Valid s) := by
  unfold DeFiCtx.Valid; infer_instance

/-- The dispatch body of one DeFi instruction (`processor.rs` lines
286-631): validation, solver call, limit comparison, and the branch
effects, producing `(branch effects, governance_mint_amount,
latest_depth)`. -/
def defiBranch {n : Nat} (inv : Invariant n) (ctx : DeFiCtx n) (s : PoolState n)
    (d : DeFiInstruction n) (now : Int) :
    Except PoolError (List (Effect n) × Nat × Nat) :=
  let arrayEqualize : (Fin n → Nat) → (Fin n → Nat) := fun amounts i =>
    toEqualized (amounts i) (s.token_decimal_equalizers i)
  match d with
  | DeFiInstruction.add input_amounts minimum_mint_amount =>
    if ∀ i, input_amounts i = 0 then Except.error PoolError.invalidInstructionData
    else if ctx.lp_total_supply = 0 ∧ ∃ i, input_amounts i = 0 then
      Except.error PoolError.addRequiresAllTokens
    else
      match inv.add (arrayEqualize input_amounts) (arrayEqualize ctx.pool_balances)
          (s.amp_factor.get now) s.lp_fee.get s.governance_fee.get
          (toEqualized ctx.lp_total_supply s.lp_decimal_equalizer) s.previous_depth with
      | Except.error e => Except.error e
      | Except.ok (user_amount, governance_mint_amount, latest_depth) =>
        let mint_amount := fromEqualized user_amount s.lp_decimal_equalizer
        let governance_mint_amount := fromEqualized governance_mint_amount s.lp_decimal_equalizer
        if mint_amount < minimum_mint_amount then Except.error PoolError.outsideSpecifiedLimits
        else
          Except.ok
            ((List.ofFn fun i =>
                if input_amounts i > 0 then [Effect.transferIn i (input_amounts i)] else []).flatten
              ++ [Effect.mintUser mint_amount],
              governance_mint_amount, latest_depth)
  | DeFiInstruction.removeUniform exact_burn_amount minimum_output_amounts =>
    if exact_burn_amount = 0 ∨ exact_burn_amount > ctx.lp_total_supply then
      Except.error PoolError.invalidInstructionData
    else
      match Dec.divNat (Dec.ofNat exact_burn_amount) ctx.lp_total_supply with
      | Except.error e => Except.error e
      | Except.ok user_share =>
        let user_depth :=
          s.previous_depth * (Dec.mulNat user_share (10 ^ 18)).trunc / 10 ^ 18
        let latest_depth := s.previous_depth - user_depth
        let output_amount : Fin n → Nat := fun i =>
          (Dec.mulNat user_share (ctx.pool_balances i)).trunc
        if ∃ i, output_amount i < minimum_output_amounts i then
          Except.error PoolError.outsideSpecifiedLimits
        else
          Except.ok
            (((List.finRange n).map fun i => Effect.transferOut i (output_amount i))
              ++ [Effect.burnUser exact_burn_amount], 0, latest_depth)
  | DeFiInstruction.swapExactInput exact_input_amounts output_token_index
      minimum_output_amount =>
    if ∀ i, exact_input_amounts i = 0 then Except.error PoolError.invalidInstructionData
    else if h : output_token_index < n then
      let k : Fin n := ⟨output_token_index, h⟩
      if exact_input_amounts k ≠ 0 then Except.error PoolError.invalidInstructionData
      else
        match inv.swap_exact_input (arrayEqualize exact_input_amounts) output_token_index
            (arrayEqualize ctx.pool_balances) (s.amp_factor.get now) s.lp_fee.get
            s.governance_fee.get (toEqualized ctx.lp_total_supply s.lp_decimal_equalizer)
            s.previous_depth with
        | Except.error e => Except.error e
        | Except.ok (user_amount, governance_mint_amount, latest_depth) =>
          let output_amount := fromEqualized user_amount (s.token_decimal_equalizers k)
          let governance_mint_amount :=
            fromEqualized governance_mint_amount s.lp_decimal_equalizer
          if output_amount < minimum_output_amount then
            Except.error PoolError.outsideSpecifiedLimits
          else
            Except.ok
              ((List.ofFn fun i =>
                  if exact_input_amounts i > 0 then
                    [Effect.transferIn i (exact_input_amounts i)]
                  else []).flatten
                ++ [Effect.transferOut k output_amount],
                governance_mint_amount, latest_depth)
    else Except.error PoolError.invalidInstructionData
  | DeFiInstruction.swapExactOutput maximum_input_amount input_token_index
      exact_output_amounts =>
    if ∀ i, exact_output_amounts i = 0 then Except.error PoolError.invalidInstructionData
    else if h : input_token_index < n then
      let k : Fin n := ⟨input_token_index, h⟩
      if exact_output_amounts k ≠ 0 then Except.error PoolError.invalidInstructionData
      else if ∃ i, exact_output_amounts i ≥ ctx.pool_balances i then
        Except.error PoolError.invalidInstructionData
      else
        match inv.swap_exact_output input_token_index (arrayEqualize exact_output_amounts)
            (arrayEqualize ctx.pool_balances) (s.amp_factor.get now) s.lp_fee.get
            s.governance_fee.get (toEqualized ctx.lp_total_supply s.lp_decimal_equalizer)
            s.previous_depth with
        | Except.error e => Except.error e
        | Except.ok (user_amount, governance_mint_amount, latest_depth) =>
          let input_amount := fromEqualized user_amount (s.token_decimal_equalizers k)
          let governance_mint_amount :=
            fromEqualized governance_mint_amount s.lp_decimal_equalizer
          if input_amount > maximum_input_amount then
            Except.error PoolError.outsideSpecifiedLimits
          else
            Except.ok
              (Effect.transferIn k input_amount ::
                (List.ofFn fun i =>
                  if exact_output_amounts i > 0 then
                    [Effect.transferOut i (exact_output_amounts i)]
                  else []).flatten,
                governance_mint_amount, latest_depth)
    else Except.error PoolError.invalidInstructionData
  | DeFiInstruction.removeExactBurn exact_burn_amount output_token_index
      minimum_output_amount =>
    if h : output_token_index < n then
      let k : Fin n := ⟨output_token_index, h⟩
      if exact_burn_amount = 0 ∨ exact_burn_amount ≥ ctx.lp_total_supply then
        Except.error PoolError.invalidInstructionData
      else
        match inv.remove_exact_burn (toEqualized exact_burn_amount s.lp_decimal_equalizer)
            output_token_index (arrayEqualize ctx.pool_balances) (s.amp_factor.get now)
            s.lp_fee.get s.governance_fee.get
            (toEqualized ctx.lp_total_supply s.lp_decimal_equalizer) s.previous_depth with
        | Except.error e => Except.error e
        | Except.ok (user_amount, governance_mint_amount, latest_depth) =>
          let output_amount := fromEqualized user_amount (s.token_decimal_equalizers k)
          let governance_mint_amount :=
            fromEqualized governance_mint_amount s.lp_decimal_equalizer
          if output_amount < minimum_output_amount then
            Except.error PoolError.outsideSpecifiedLimits
          else
            Except.ok
              ([Effect.burnUser exact_burn_amount, Effect.transferOut k output_amount],
                governance_mint_amount, latest_depth)
    else Except.error PoolError.invalidInstructionData
  | DeFiInstruction.removeExactOutput maximum_burn_amount exact_output_amounts =>
    if ∀ i, exact_output_amounts i = 0 then Except.error PoolError.invalidInstructionData
    else if maximum_burn_amount = 0 then Except.error PoolError.invalidInstructionData
    else if ∃ i, exact_output_amounts i ≥ ctx.pool_balances i then
      Except.error PoolError.invalidInstructionData
    else
      match inv.remove_exact_output (arrayEqualize exact_output_amounts)
          (arrayEqualize ctx.pool_balances) (s.amp_factor.get now) s.lp_fee.get
          s.governance_fee.get (toEqualized ctx.lp_total_supply s.lp_decimal_equalizer)
          s.previous_depth with
      | Except.error e => Except.error e
      | Except.ok (user_amount, governance_mint_amount, latest_depth) =>
        let burn_amount := fromEqualized user_amount s.lp_decimal_equalizer
        let governance_mint_amount :=
          fromEqualized governance_mint_amount s.lp_decimal_equalizer
        if burn_amount > maximum_burn_amount then
          Except.error PoolError.outsideSpecifiedLimits
        else
          Except.ok
            (Effect.burnUser burn_amount ::
              (List.ofFn fun i =>
                if exact_output_amounts i > 0 then
                  [Effect.transferOut i (exact_output_amounts i)]
                else []).flatten,
              governance_mint_amount, latest_depth)

/-- `process_defi_instruction` (`processor.rs` lines 203-648): the
pause gate, the account checks, the dispatch, the trailing
governance-fee mint (only when strictly positive), and the
previous-depth update.  On error nothing is emitted and the record is
unchanged (the host aborts the transaction, spec section 5). -/
def processDefi {n : Nat} (inv : Invariant n) (ctx : DeFiCtx n) (s : PoolState n)
    (d : DeFiInstruction n) (now : Int) :
    Except PoolError (List (Effect n) × PoolState n) :=
  if s.is_paused = true ∧ d.isRemoveUniform = false then Except.error PoolError.poolIsPaused
  else
    match ctx.derived_authority with
    | none => Except.error PoolError.incorrectProgramId
    | some auth =>
      if ctx.pool_authority_key ≠ auth then Except.error PoolError.invalidPoolAuthorityAccount
      else if ¬∀ i, ctx.pool_token_keys i = s.token_keys i then
        Except.error PoolError.poolTokenAccountExpected
      else if ctx.lp_mint_key ≠ s.lp_mint_key then Except.error PoolError.invalidMintAccount
      else if ctx.governance_fee_key ≠ s.governance_fee_key then
        Except.error PoolError.invalidGovernanceFeeAccount
      else
        match defiBranch inv ctx s d now with
        | Except.error e => Except.error e
        | Except.ok (effects, governance_mint_amount, latest_depth) =>
          Except.ok
            (effects ++
              (if governance_mint_amount > 0 then [Effect.mintGov governance_mint_amount]
                else []),
              { s with previous_depth := latest_depth })

/-- Accounts supplied to a governance instruction (`processor.rs`
lines 655-659 and 715-726). -/
structure GovCtx where
  governance_account_key : Nat
  governance_is_signer : Bool
  change_fee_account_key : Nat
  change_fee_account_mint : Nat

/-- `process_governance_instruction` (`processor.rs` lines 650-749). -/
def processGov {n : Nat} (ctx : GovCtx) (g : GovernanceInstruction) (now : Int)
    (s : PoolState n) : Except PoolError (PoolState n) :=
  if ctx.governance_account_key ≠ s.governance_key then
    Except.error PoolError.invalidGovernanceAccount
  else if ctx.governance_is_signer = false then Except.error PoolError.missingRequiredSignature
  else
    match g with
    | GovernanceInstruction.prepareFeeChange lp_fee governance_fee =>
      match Dec.add lp_fee governance_fee with
      | Except.error e => Except.error e
      | Except.ok sum =>
        if Dec.Le Dec.one sum then Except.error PoolError.invalidFeeInput
        else
          match PoolFee.new lp_fee with
          | Except.error e => Except.error e
          | Except.ok lf =>
            match PoolFee.new governance_fee with
            | Except.error e => Except.error e
            | Except.ok gf =>
              Except.ok
                { s with
                  prepared_lp_fee := lf
                  prepared_governance_fee := gf
                  fee_transition_ts := now + ENACT_DELAY }
    | GovernanceInstruction.enactFeeChange =>
      if s.fee_transition_ts = 0 then Except.error PoolError.invalidEnact
      else if s.fee_transition_ts > now then Except.error PoolError.insufficientDelay
      else if Dec.Lt Dec.zero s.prepared_governance_fee.get ∧ s.governance_fee_key = 0 then
        Except.error PoolError.invalidGovernanceFeeAccount
      else
        Except.ok
          { s with
            lp_fee := s.prepared_lp_fee
            governance_fee := s.prepared_governance_fee
            prepared_lp_fee := PoolFee.default
            prepared_governance_fee := PoolFee.default
            fee_transition_ts := 0 }
    | GovernanceInstruction.prepareGovernanceTransition upcoming_governance_key =>
      Except.ok
        { s with
          prepared_governance_key := upcoming_governance_key
          governance_transition_ts := now + ENACT_DELAY }
    | GovernanceInstruction.enactGovernanceTransition =>
      if s.governance_transition_ts = 0 then Except.error PoolError.invalidEnact
      else if s.governance_transition_ts > now then Except.error PoolError.insufficientDelay
      else
        Except.ok
          { s with
            governance_key := s.prepared_governance_key
            prepared_governance_key := 0
            governance_transition_ts := 0 }
    | GovernanceInstruction.changeGovernanceFeeAccount governance_fee_key =>
      if governance_fee_key ≠ 0 then
        if ctx.change_fee_account_key ≠ governance_fee_key then
          Except.error PoolError.invalidGovernanceFeeAccount
        else if ctx.change_fee_account_mint ≠ s.lp_mint_key then
          Except.error PoolError.mintMismatch
        else Except.ok { s with governance_fee_key := governance_fee_key }
      else if ¬Dec.Eqv s.governance_fee.get Dec.zero then
        Except.error PoolError.invalidGovernanceFeeAccount
      else Except.ok { s with governance_fee_key := governance_fee_key }
    | GovernanceInstruction.adjustAmpFactor target_ts target_value =>
      match s.amp_factor.set_target now target_value target_ts with
      | Except.error e => Except.error e
      | Except.ok a => Except.ok { s with amp_factor := a }
    | GovernanceInstruction.setPaused paused => Except.ok { s with is_paused := paused }

/-- One step of `check_duplicate_and_get_next` (`processor.rs` lines
78-91): a non-zero key already seen fails with `DuplicateAccount`,
otherwise it is recorded. -/
def checkDup (seen : List Nat) (k : Nat) : Except PoolError (List Nat) :=
  if k ≠ 0 then
    if k ∈ seen then Except.error PoolError.duplicateAccount else Except.ok (k :: seen)
  else Except.ok seen

/-- Sequential duplicate scan over a list of keys. -/
def dupScan (seen : List Nat) : List Nat → Except PoolError (List Nat)
  | [] => Except.ok seen
  | k :: ks =>
    match checkDup seen k with
    | Except.ok seen' => dupScan seen' ks
    | Except.error e => Except.error e

/-- Sequential execution of per-item checks, first error wins. -/
def iterChecks {α : Type} (f : α → Except PoolError Unit) : List α → Except PoolError Unit
  | [] => Except.ok ()
  | x :: xs =>
    match f x with
    | Except.ok _ => iterChecks f xs
    | Except.error e => Except.error e

/-- Accounts supplied to `Init` (`processor.rs` lines 66-201).
Account unpacking is abstracted: the context carries the keys and the
already-unpacked mint and token-account states the processor reads. -/
structure InitCtx (n : Nat) where
  pool_key : Nat
  pool_rent_exempt : Bool
  pool_uninitialized : Bool
  derived_authority : Option Nat
  lp_mint_key : Nat
  lp_mint_supply : Nat
  lp_mint_decimals : Nat
  lp_mint_mint_authority : Option Nat
  lp_mint_freeze_authority : Option Nat
  token_mint_keys : Fin n → Nat
  token_mint_decimals : Fin n → Nat
  token_account_keys : Fin n → Nat
  token_account_mint : Fin n → Nat
  token_account_owner : Fin n → Nat
  token_account_amount : Fin n → Nat
  token_account_delegate : Fin n → Option Nat
  token_account_close_authority : Fin n → Option Nat
  governance_key : Nat
  governance_fee_key : Nat
  governance_fee_mint : Nat

/-- `decimal_range_min` after the fold over the token mints
(`processor.rs` lines 131-139). -/
def initDecMin {n : Nat} (ctx : InitCtx n) : Nat :=
  (List.finRange n).foldl (fun m i => min m (ctx.token_mint_decimals i)) ctx.lp_mint_decimals

/-- `decimal_range_max` after the fold over the token mints
(`processor.rs` lines 131-139). -/
def initDecMax {n : Nat} (ctx : InitCtx n) : Nat :=
  (List.finRange n).foldl (fun m i => max m (ctx.token_mint_decimals i)) ctx.lp_mint_decimals

/-- The maximum allowed spread of mint decimals (`processor.rs`
line 37). -/
def MAX_DECIMAL_DIFFERENCE : Nat := 8

/-- Per-vault validation (`processor.rs` lines 145-166). -/
def vaultCheck {n : Nat} (ctx : InitCtx n) (auth : Nat) (i : Fin n) :
    Except PoolError Unit :=
  if ctx.token_account_mint i ≠ ctx.token_mint_keys i then Except.error PoolError.mintMismatch
  else if ctx.token_account_owner i ≠ auth then Except.error PoolError.ownerMismatch
  else if ctx.token_account_amount i ≠ 0 then Except.error PoolError.tokenAccountHasBalance
  else if ctx.token_account_delegate i ≠ none then
    Except.error PoolError.tokenAccountHasDelegate
  else if ctx.token_account_close_authority i ≠ none then
    Except.error PoolError.tokenAccountHasCloseAuthority
  else Except.ok ()

/-- The account-validation phase of `process_init` (`processor.rs`
lines 78-201), with the checks in source order: pool account duplicate
scan and rent and initialization checks, authority derivation, LP mint
checks, token mint and vault account fetches (each through the
duplicate scan), decimal-spread check, vault state checks, governance
account fetches, governance-fee mint check, and finally the
construction of the persisted record. -/
def processInitChecked {n : Nat} (ctx : InitCtx n) (nonce : Nat)
    (amp_factor lp_fee governance_fee : Dec) : Except PoolError (PoolState n) :=
  match checkDup [] ctx.pool_key with
      | Except.error e => Except.error e
      | Except.ok seen =>
        if ctx.pool_rent_exempt = false then Except.error PoolError.accountNotRentExempt
        else if ctx.pool_uninitialized = false then
          Except.error PoolError.accountAlreadyInitialized
        else
          match ctx.derived_authority with
          | none => Except.error PoolError.incorrectProgramId
          | some auth =>
            match checkDup seen ctx.lp_mint_key with
            | Except.error e => Except.error e
            | Except.ok seen =>
              if ctx.lp_mint_supply ≠ 0 then Except.error PoolError.mintHasBalance
              else if ctx.lp_mint_mint_authority ≠ some auth then
                Except.error PoolError.invalidMintAuthority
              else if ctx.lp_mint_freeze_authority ≠ none then
                Except.error PoolError.mintHasFreezeAuthority
              else
                match dupScan seen ((List.finRange n).map ctx.token_mint_keys) with
                | Except.error e => Except.error e
                | Except.ok seen =>
                  match dupScan seen ((List.finRange n).map ctx.token_account_keys) with
                  | Except.error e => Except.error e
                  | Except.ok seen =>
                    if initDecMax ctx - initDecMin ctx > MAX_DECIMAL_DIFFERENCE then
                      Except.error PoolError.maxDecimalDifferenceExceeded
                    else
                      match iterChecks (vaultCheck ctx auth) (List.finRange n) with
                      | Except.error e => Except.error e
                      | Except.ok _ =>
                        match checkDup seen ctx.governance_key with
                        | Except.error e => Except.error e
                        | Except.ok seen =>
                          match checkDup seen ctx.governance_fee_key with
                          | Except.error e => Except.error e
                          | Except.ok _ =>
                            if (¬Dec.Eqv governance_fee Dec.zero ∨
                                  ctx.governance_fee_key ≠ 0) ∧
                                ctx.governance_fee_mint ≠ ctx.lp_mint_key then
                              Except.error PoolError.mintMismatch
                            else
                              match AmpFactor.new amp_factor with
                              | Except.error e => Except.error e
                              | Except.ok amp =>
                                match PoolFee.new lp_fee with
                                | Except.error e => Except.error e
                                | Except.ok lf =>
                                  match PoolFee.new governance_fee with
                                  | Except.error e => Except.error e
                                  | Except.ok gf =>
                                    Except.ok
                                      { nonce := nonce
                                        is_paused := false
                                        amp_factor := amp
                                        lp_fee := lf
                                        governance_fee := gf
                                        lp_mint_key := ctx.lp_mint_key
                                        lp_decimal_equalizer :=
                                          initDecMax ctx - ctx.lp_mint_decimals
                                        token_mint_keys := ctx.token_mint_keys
                                        token_decimal_equalizers := fun i =>
                                          initDecMax ctx - ctx.token_mint_decimals i
                                        token_keys := ctx.token_account_keys
                                        governance_key := ctx.governance_key
                                        governance_fee_key := ctx.governance_fee_key
                                        prepared_governance_key := 0
                                        governance_transition_ts := 0
                                        prepared_lp_fee := PoolFee.default
                                        prepared_governance_fee := PoolFee.default
                                        fee_transition_ts := 0
                                        previous_depth := 0 }

/-- `process_init` (`processor.rs` lines 66-201): the fee-sum gate
(lines 74-76) in front of the account-validation phase
`processInitChecked` (lines 78-201). -/
def processInit {n : Nat} (ctx : InitCtx n) (nonce : Nat)
    (amp_factor lp_fee governance_fee : Dec) : Except PoolError (PoolState n) :=
  match Dec.add lp_fee governance_fee with
  | Except.error e => Except.error e
  | Except.ok sum =>
    if Dec.Le Dec.one sum then Except.error PoolError.invalidFeeInput
    else processInitChecked ctx nonce amp_factor lp_fee governance_fee

/-- The ordered list of all account keys `Init` feeds through the
duplicate scan. -/
def initKeyList {n : Nat} (ctx : InitCtx n) : List Nat :=
  ctx.pool_key :: ctx.lp_mint_key ::
    ((List.finRange n).map ctx.token_mint_keys ++
      (List.finRange n).map ctx.token_account_keys ++
      [ctx.governance_key, ctx.governance_fee_key])

/-- Read one byte of the instruction data. -/
def rdU8 : List Nat → Option (Nat × List Nat)
  | [] => none
  | b :: r => some (b, r)

/-- Read a little-endian fixed-width unsigned integer of the given
byte width. -/
def rdLE : Nat → List Nat → Option (Nat × List Nat)
  | 0, l => some (0, l)
  | _ + 1, [] => none
  | k + 1, b :: r =>
    match rdLE k r with
    | none => none
    | some (v, rest) => some (b + 256 * v, rest)

/-- Read a `u64`. -/
def rdU64 (l : List Nat) : Option (Nat × List Nat) := rdLE 8 l

/-- Read a 32-byte public key (keys are modelled as naturals). -/
def rdPubkey (l : List Nat) : Option (Nat × List Nat) := rdLE 32 l

/-- Read an `i64` (`UnixTimestamp`), two's complement little-endian. -/
def rdI64 (l : List Nat) : Option (Int × List Nat) :=
  match rdLE 8 l with
  | none => none
  | some (v, r) => some (if v < 2 ^ 63 then (v : Int) else (v : Int) - 2 ^ 64, r)

/-- Read a borsh `bool`: a single byte that must be 0 or 1. -/
def rdBool (l : List Nat) : Option (Bool × List Nat) :=
  match rdU8 l with
  | none => none
  | some (0, r) => some (false, r)
  | some (1, r) => some (true, r)
  | some _ => none

/-- Modelled from the spec: `DecimalU64` is serialized as
`(mantissa: u64, point: u8)` with the point in `[0, 19]`
(spec sections 3 and 6). -/
def rdDec (l : List Nat) : Option (Dec × List Nat) :=
  match rdU64 l with
  | none => none
  | some (m, r) =>
    match rdU8 r with
    | none => none
    | some (p, r2) => if p ≤ 19 then some (⟨m, p⟩, r2) else none

/-- Read a flat array of `n` little-endian `u64` amounts. -/
def rdArr : (k : Nat) → List Nat → Option ((Fin k → Nat) × List Nat)
  | 0, l => some (fun i => i.elim0, l)
  | k + 1, l =>
    match rdU64 l with
    | none => none
    | some (v, r) =>
      match rdArr k r with
      | none => none
      | some (f, r2) => some (Fin.cons v f, r2)

/-- Decode the nested `DeFiInstruction` enum, tags in declaration
order (`instruction.rs` lines 81-191). -/
def rdDeFi (n : Nat) (l : List Nat) : Option (DeFiInstruction n × List Nat) :=
  match rdU8 l with
  | none => none
  | some (tag, r) =>
    match tag with
    | 0 =>
      match rdArr n r with
      | none => none
      | some (amounts, r1) =>
        match rdU64 r1 with
        | none => none
        | some (m, r2) => some (DeFiInstruction.add amounts m, r2)
    | 1 =>
      match rdArr n r with
      | none => none
      | some (amounts, r1) =>
        match rdU8 r1 with
        | none => none
        | some (idx, r2) =>
          match rdU64 r2 with
          | none => none
          | some (m, r3) => some (DeFiInstruction.swapExactInput amounts idx m, r3)
    | 2 =>
      match rdU64 r with
      | none => none
      | some (mx, r1) =>
        match rdU8 r1 with
        | none => none
        | some (idx, r2) =>
          match rdArr n r2 with
          | none => none
          | some (amounts, r3) => some (DeFiInstruction.swapExactOutput mx idx amounts, r3)
    | 3 =>
      match rdU64 r with
      | none => none
      | some (burn, r1) =>
        match rdArr n r1 with
        | none => none
        | some (mins, r2) => some (DeFiInstruction.removeUniform burn mins, r2)
    | 4 =>
      match rdU64 r with
      | none => none
      | some (burn, r1) =>
        match rdU8 r1 with
        | none => none
        | some (idx, r2) =>
          match rdU64 r2 with
          | none => none
          | some (m, r3) => some (DeFiInstruction.removeExactBurn burn idx m, r3)
    | 5 =>
      match rdU64 r with
      | none => none
      | some (mx, r1) =>
        match rdArr n r1 with
        | none => none
        | some (amounts, r2) => some (DeFiInstruction.removeExactOutput mx amounts, r2)
    | _ => none

/-- Decode the nested `GovernanceInstruction` enum, tags in
declaration order (`instruction.rs` lines 313-377). -/
def rdGovernance (l : List Nat) : Option (GovernanceInstruction × List Nat) :=
  match rdU8 l with
  | none => none
  | some (tag, r) =>
    match tag with
    | 0 =>
      match rdDec r with
      | none => none
      | some (lp, r1) =>
        match rdDec r1 with
        | none => none
        | some (gov, r2) => some (GovernanceInstruction.prepareFeeChange lp gov, r2)
    | 1 => some (GovernanceInstruction.enactFeeChange, r)
    | 2 =>
      match rdPubkey r with
      | none => none
      | some (k, r1) => some (GovernanceInstruction.prepareGovernanceTransition k, r1)
    | 3 => some (GovernanceInstruction.enactGovernanceTransition, r)
    | 4 =>
      match rdPubkey r with
      | none => none
      | some (k, r1) => some (GovernanceInstruction.changeGovernanceFeeAccount k, r1)
    | 5 =>
      match rdI64 r with
      | none => none
      | some (ts, r1) =>
        match rdDec r1 with
        | none => none
        | some (v, r2) => some (GovernanceInstruction.adjustAmpFactor ts v, r2)
    | 6 =>
      match rdBool r with
      | none => none
      | some (b, r1) => some (GovernanceInstruction.setPaused b, r1)
    | _ => none

/-- `PoolInstruction::try_from_slice` (`processor.rs` line 46): decode
the top-level enum and require every byte to be consumed (the source
notes it deliberately uses the all-bytes-read variant). -/
def decodePoolInstruction (n : Nat) (l : List Nat) : Option (PoolInstruction n) :=
  let parsed : Option (PoolInstruction n × List Nat) :=
    match rdU8 l with
    | none => none
    | some (tag, r) =>
      match tag with
      | 0 =>
        match rdU8 r with
        | none => none
        | some (nonce, r1) =>
          match rdDec r1 with
          | none => none
          | some (amp, r2) =>
            match rdDec r2 with
            | none => none
            | some (lp, r3) =>
              match rdDec r3 with
              | none => none
              | some (gov, r4) => some (PoolInstruction.init nonce amp lp gov, r4)
      | 1 =>
        match rdDeFi n r with
        | none => none
        | some (d, r1) => some (PoolInstruction.defi d, r1)
      | 2 =>
        match rdGovernance r with
        | none => none
        | some (g, r1) => some (PoolInstruction.governance g, r1)
      | _ => none
  match parsed with
  | some (x, []) => some x
  | _ => none

/-- `Processor::process` (`processor.rs` lines 44-64): decode the
instruction bytes, then dispatch.  A failed decode is surfaced as
`InvalidInstructionData` before any account is touched: the result is
the same for every account context and carries no effects. -/
def process {n : Nat} (inv : Invariant n) (bytes : List Nat) (ictx : InitCtx n)
    (dctx : DeFiCtx n) (gctx : GovCtx) (s : PoolState n) (now : Int) :
    Except PoolError (List (Effect n) × PoolState n) :=
  match decodePoolInstruction n bytes with
  | none => Except.error PoolError.invalidInstructionData
  | some (PoolInstruction.init nonce amp lp gov) =>
    match processInit ictx nonce amp lp gov with
    | Except.error e => Except.error e
    | Except.ok st => Except.ok ([], st)
  | some (PoolInstruction.defi d) => processDefi inv dctx s d now
  | some (PoolInstruction.governance g) =>
    match processGov gctx g now s with
    | Except.error e => Except.error e
    | Except.ok st => Except.ok ([], st)

/-! Concrete fixtures used for witnesses and counterexamples. -/

/-- A trivial solver instance (all entry points answer zero). -/
def invZero : Invariant 2 :=
  ⟨fun _ _ _ _ _ _ _ => Except.ok (0, 0, 0),
   fun _ _ _ _ _ _ _ _ => Except.ok (0, 0, 0),
   fun _ _ _ _ _ _ _ _ => Except.ok (0, 0, 0),
   fun _ _ _ _ _ _ _ _ => Except.ok (0, 0, 0),
   fun _ _ _ _ _ _ _ => Except.ok (0, 0, 0)⟩

/-- A solver instance answering a large user amount (used to trip the
user limit checks). -/
def invBig : Invariant 2 :=
  ⟨fun _ _ _ _ _ _ _ => Except.ok (1000000, 0, 0),
   fun _ _ _ _ _ _ _ _ => Except.ok (1000000, 0, 0),
   fun _ _ _ _ _ _ _ _ => Except.ok (1000000, 0, 0),
   fun _ _ _ _ _ _ _ _ => Except.ok (1000000, 0, 0),
   fun _ _ _ _ _ _ _ => Except.ok (1000000, 0, 0)⟩

/-- A constant amp factor fixture. -/
def ampUnit : AmpFactor := ⟨⟨1000, 0⟩, 0, ⟨1000, 0⟩, 0⟩

/-- A small two-token pool record fixture. -/
def basePoolState : PoolState 2 where
  nonce := 1
  is_paused := false
  amp_factor := ampUnit
  lp_fee := PoolFee.default
  governance_fee := PoolFee.default
  lp_mint_key := 11
  lp_decimal_equalizer := 0
  token_mint_keys := fun i => 12 + i.val
  token_decimal_equalizers := fun _ => 0
  token_keys := fun i => 14 + i.val
  governance_key := 21
  governance_fee_key := 22
  prepared_governance_key := 0
  governance_transition_ts := 0
  prepared_lp_fee := PoolFee.default
  prepared_governance_fee := PoolFee.default
  fee_transition_ts := 0
  previous_depth := 0

/-- The same pool record with the pause bit set. -/
def pausedState : PoolState 2 := { basePoolState with is_paused := true }

/-- A DeFi account context matching `basePoolState`. -/
def baseDeFiCtx : DeFiCtx 2 where
  pool_authority_key := 5
  derived_authority := some 5
  pool_token_keys := fun i => 14 + i.val
  pool_balances := fun _ => 1000
  lp_mint_key := 11
  lp_total_supply := 100
  governance_fee_key := 22

/-- A governance account context matching `basePoolState`. -/
def baseGovCtx : GovCtx := ⟨21, true, 31, 11⟩

/-- An `Init` account context that passes every check. -/
def baseInitCtx : InitCtx 2 where
  pool_key := 1
  pool_rent_exempt := true
  pool_uninitialized := true
  derived_authority := some 5
  lp_mint_key := 11
  lp_mint_supply := 0
  lp_mint_decimals := 6
  lp_mint_mint_authority := some 5
  lp_mint_freeze_authority := none
  token_mint_keys := fun i => 12 + i.val
  token_mint_decimals := fun _ => 6
  token_account_keys := fun i => 14 + i.val
  token_account_mint := fun i => 12 + i.val
  token_account_owner := fun _ => 5
  token_account_amount := fun _ => 0
  token_account_delegate := fun _ => none
  token_account_close_authority := fun _ => none
  governance_key := 21
  governance_fee_key := 22
  governance_fee_mint := 11

/-! Helper lemmas. -/

/-- The only error checked division produces is a division by zero. -/
theorem divNat_error_eq (a : Dec) (b : Nat) (e : PoolError)
    (h : Dec.divNat a b = Except.error e) : e = PoolError.divByZero := by
  unfold Dec.divNat at h
  split at h
  · injection h with h'
    exact h'.symm
  · exact absurd h (by simp)

/-- The `RemoveUniform` branch never reports the pool as paused. -/
theorem defiBranch_removeUniform_error {n : Nat} (inv : Invariant n) (ctx : DeFiCtx n)
    (s : PoolState n) (burn : Nat) (mins : Fin n → Nat) (now : Int) (e : PoolError)
    (h : defiBranch inv ctx s (DeFiInstruction.removeUniform burn mins) now = Except.error e) :
    e = PoolError.invalidInstructionData ∨ e = PoolError.divByZero ∨
      e = PoolError.outsideSpecifiedLimits := by
  simp only [defiBranch] at h
  split at h
  · injection h with h'
    exact Or.inl h'.symm
  · split at h
    · rename_i e' heq
      injection h with h'
      rw [← h']
      exact Or.inr (Or.inl (divNat_error_eq _ _ _ heq))
    · split at h
      · injection h with h'
        exact Or.inr (Or.inr h'.symm)
      · exact absurd h (by simp)

/-- Claim C1: while the pool record has the pause bit set, every DeFi
operation other than RemoveUniform fails with PoolIsPaused (hence, in
this model, with no ledger effect and no record mutation), and
RemoveUniform is never rejected with PoolIsPaused. -/
theorem claim1_pause_gate {n : Nat} (inv : Invariant n) (ctx : DeFiCtx n) (s : PoolState n)
    (d : DeFiInstruction n) (now : Int) (hp : s.is_paused = true) :
    (d.isRemoveUniform = false →
      processDefi inv ctx s d now = Except.error PoolError.poolIsPaused) ∧
    (d.isRemoveUniform = true →
      processDefi inv ctx s d now ≠ Except.error PoolError.poolIsPaused) := by
  constructor
  · intro hd
    unfold processDefi
    simp [hp, hd]
  · intro hd hcontra
    cases d <;> simp [DeFiInstruction.isRemoveUniform] at hd
    rename_i burn mins
    unfold processDefi at hcontra
    rw [if_neg (by simp [hp, DeFiInstruction.isRemoveUniform])] at hcontra
    rcases hda : ctx.derived_authority with _ | auth <;> rw [hda] at hcontra
    · simp at hcontra
    · split at hcontra
      · simp at hcontra
      · split at hcontra
        · simp at hcontra
        · split at hcontra
          · simp at hcontra
          · split at hcontra
            · simp at hcontra
            · split at hcontra
              · simp at hcontra
              · rcases hb : defiBranch inv ctx s (DeFiInstruction.removeUniform burn mins) now
                  with e | r
                · rw [hb] at hcontra
                  simp only [Except.error.injEq] at hcontra
                  subst hcontra
                  rcases defiBranch_removeUniform_error inv ctx s burn mins now _ hb
                    with h | h | h <;> simp at h
                · rw [hb] at hcontra
                  obtain ⟨effs, gov, depth⟩ := r
                  simp at hcontra

/-- Witness for C1 at a concrete paused pool: an Add is rejected with
PoolIsPaused while a RemoveUniform is not. -/
theorem claim1_pause_gate_witness :
    processDefi invZero baseDeFiCtx pausedState (DeFiInstruction.add (fun _ => 1) 0) 7 =
      Except.error PoolError.poolIsPaused ∧
    processDefi invZero baseDeFiCtx pausedState
        (DeFiInstruction.removeUniform 1 (fun _ => 0)) 7 ≠
      Except.error PoolError.poolIsPaused :=
  ⟨(claim1_pause_gate invZero baseDeFiCtx pausedState _ 7 rfl).1 rfl,
   (claim1_pause_gate invZero baseDeFiCtx pausedState _ 7 rfl).2 rfl⟩

/-- Claim C8: an instruction byte string that fails to decode makes the
processor return InvalidInstructionData; the result is the same for
every account context and pool record and carries no effects. -/
theorem claim8_decode_failure {n : Nat} (bytes : List Nat) (inv : Invariant n)
    (ictx : InitCtx n) (dctx : DeFiCtx n) (gctx : GovCtx) (s : PoolState n) (now : Int)
    (h : decodePoolInstruction n bytes = none) :
    process inv bytes ictx dctx gctx s now = Except.error PoolError.invalidInstructionData := by
  unfold process
  rw [h]

/-- Witness for C8: the one-byte string with an unknown tag fails to
decode and the processor reports InvalidInstructionData. -/
theorem claim8_decode_failure_witness :
    decodePoolInstruction 2 [255] = none ∧
    process invZero [255] baseInitCtx baseDeFiCtx baseGovCtx basePoolState 7 =
      Except.error PoolError.invalidInstructionData :=
  ⟨rfl, claim8_decode_failure [255] invZero baseInitCtx baseDeFiCtx baseGovCtx
    basePoolState 7 rfl⟩

/-- A record with a pending fee change whose prepared governance fee is
positive while the governance fee account key is zero. -/
def enactFeeState : PoolState 2 :=
  { basePoolState with
    fee_transition_ts := 5
    prepared_governance_fee := ⟨⟨1, 1⟩⟩
    governance_fee_key := 0 }

/-- A record with both transitions pending and a non-zero governance
fee account key. -/
def enactReadyState : PoolState 2 :=
  { basePoolState with
    fee_transition_ts := 5
    governance_transition_ts := 6
    prepared_lp_fee := ⟨⟨3, 3⟩⟩
    prepared_governance_fee := ⟨⟨1, 3⟩⟩
    prepared_governance_key := 77 }

/-- Claim C4: with the enact preconditions on the timestamp met,
EnactFeeChange checks the current governance fee key at enact time and
fails with InvalidGovernanceFeeAccount whenever the prepared governance
fee is positive and that key is the zero key; the error leaves the
record unchanged (errors commit nothing in this model). -/
theorem claim4_enact_fee_account_check {n : Nat} (ctx : GovCtx) (s : PoolState n) (now : Int)
    (hkey : ctx.governance_account_key = s.governance_key)
    (hsig : ctx.governance_is_signer = true)
    (hts : s.fee_transition_ts ≠ 0) (hnow : s.fee_transition_ts ≤ now)
    (hfee : Dec.Lt Dec.zero s.prepared_governance_fee.get)
    (hzero : s.governance_fee_key = 0) :
    processGov ctx GovernanceInstruction.enactFeeChange now s =
      Except.error PoolError.invalidGovernanceFeeAccount := by
  have h2 : ¬s.fee_transition_ts > now := by omega
  simp [processGov, hkey, hsig, hts, h2, hfee, hzero]

/-- Witness for C4 at a concrete record: a positive prepared governance
fee and a zero fee-account key make EnactFeeChange fail. -/
theorem claim4_enact_fee_account_check_witness :
    Dec.Lt Dec.zero enactFeeState.prepared_governance_fee.get ∧
    enactFeeState.governance_fee_key = 0 ∧
    processGov baseGovCtx GovernanceInstruction.enactFeeChange 10 enactFeeState =
      Except.error PoolError.invalidGovernanceFeeAccount :=
  ⟨by decide, rfl,
    claim4_enact_fee_account_check baseGovCtx enactFeeState 10 rfl rfl (by decide)
      (by decide) (by decide) rfl⟩

/-- Counterexample for C2 as frozen: a record whose fee transition
timestamp is non-zero and already reached still fails (with
InvalidGovernanceFeeAccount) instead of succeeding, because the
prepared governance fee is positive while the governance fee key is
zero. -/
theorem claim2_time_gate_counterexample :
    enactFeeState.fee_transition_ts ≠ 0 ∧ enactFeeState.fee_transition_ts ≤ 10 ∧
    processGov baseGovCtx GovernanceInstruction.enactFeeChange 10 enactFeeState =
      Except.error PoolError.invalidGovernanceFeeAccount := by
  refine ⟨by decide, by decide, ?_⟩
  rfl

/-- Claim C2 (amended): for EnactFeeChange and
EnactGovernanceTransition, a zero transition timestamp fails with
InvalidEnact and a future timestamp fails with InsufficientDelay; at or
after the timestamp EnactGovernanceTransition succeeds, and
EnactFeeChange succeeds provided additionally that it is not the case
that the prepared governance fee is positive while the governance fee
account key is zero; success commits the prepared values and resets the
prepared fields and the timestamp to zero. -/
theorem claim2_enact_time_gate_amended {n : Nat} (ctx : GovCtx) (s : PoolState n) (now : Int)
    (hkey : ctx.governance_account_key = s.governance_key)
    (hsig : ctx.governance_is_signer = true) :
    ((s.fee_transition_ts = 0 →
        processGov ctx GovernanceInstruction.enactFeeChange now s =
          Except.error PoolError.invalidEnact) ∧
      (s.fee_transition_ts ≠ 0 → s.fee_transition_ts > now →
        processGov ctx GovernanceInstruction.enactFeeChange now s =
          Except.error PoolError.insufficientDelay) ∧
      (s.fee_transition_ts ≠ 0 → s.fee_transition_ts ≤ now →
        ¬(Dec.Lt Dec.zero s.prepared_governance_fee.get ∧ s.governance_fee_key = 0) →
        processGov ctx GovernanceInstruction.enactFeeChange now s =
          Except.ok
            { s with
              lp_fee := s.prepared_lp_fee
              governance_fee := s.prepared_governance_fee
              prepared_lp_fee := PoolFee.default
              prepared_governance_fee := PoolFee.default
              fee_transition_ts := 0 })) ∧
    ((s.governance_transition_ts = 0 →
        processGov ctx GovernanceInstruction.enactGovernanceTransition now s =
          Except.error PoolError.invalidEnact) ∧
      (s.governance_transition_ts ≠ 0 → s.governance_transition_ts > now →
        processGov ctx GovernanceInstruction.enactGovernanceTransition now s =
          Except.error PoolError.insufficientDelay) ∧
      (s.governance_transition_ts ≠ 0 → s.governance_transition_ts ≤ now →
        processGov ctx GovernanceInstruction.enactGovernanceTransition now s =
          Except.ok
            { s with
              governance_key := s.prepared_governance_key
              prepared_governance_key := 0
              governance_transition_ts := 0 })) := by
  refine ⟨⟨?_, ?_, ?_⟩, ?_, ?_, ?_⟩
  · intro h
    simp [processGov, hkey, hsig, h]
  · intro h h2
    simp [processGov, hkey, hsig, h, h2]
  · intro h h2 h3
    have h4 : ¬s.fee_transition_ts > now := by omega
    simp [processGov, hkey, hsig, h, h4, h3]
  · intro h
    simp [processGov, hkey, hsig, h]
  · intro h h2
    simp [processGov, hkey, hsig, h, h2]
  · intro h h2
    have h4 : ¬s.governance_transition_ts > now := by omega
    simp [processGov, hkey, hsig, h, h4]

/-- Witness for the amended C2 at a concrete record: before the
timestamps both enacts fail, and at time 10 both succeed and commit. -/
theorem claim2_enact_time_gate_amended_witness :
    processGov baseGovCtx GovernanceInstruction.enactFeeChange 10 basePoolState =
      Except.error PoolError.invalidEnact ∧
    processGov baseGovCtx GovernanceInstruction.enactFeeChange 3 enactReadyState =
      Except.error PoolError.insufficientDelay ∧
    processGov baseGovCtx GovernanceInstruction.enactFeeChange 10 enactReadyState =
      Except.ok
        { enactReadyState with
          lp_fee := enactReadyState.prepared_lp_fee
          governance_fee := enactReadyState.prepared_governance_fee
          prepared_lp_fee := PoolFee.default
          prepared_governance_fee := PoolFee.default
          fee_transition_ts := 0 } ∧
    processGov baseGovCtx GovernanceInstruction.enactGovernanceTransition 10 enactReadyState =
      Except.ok
        { enactReadyState with
          governance_key := enactReadyState.prepared_governance_key
          prepared_governance_key := 0
          governance_transition_ts := 0 } :=
  ⟨(claim2_enact_time_gate_amended baseGovCtx basePoolState 10 rfl rfl).1.1 rfl,
   (claim2_enact_time_gate_amended baseGovCtx enactReadyState 3 rfl rfl).1.2.1 (by decide)
     (by decide),
   (claim2_enact_time_gate_amended baseGovCtx enactReadyState 10 rfl rfl).1.2.2 (by decide)
     (by decide) (by decide),
   (claim2_enact_time_gate_amended baseGovCtx enactReadyState 10 rfl rfl).2.2.2 (by decide)
     (by decide)⟩

/-- Governance processing never reads the pause bit: processing on a
record with the bit rewritten only re-applies the rewrite to the
result (and SetPaused overwrites it). -/
theorem processGov_ignores_pause {n : Nat} (ctx : GovCtx) (g : GovernanceInstruction)
    (now : Int) (s : PoolState n) (b : Bool) :
    processGov ctx g now { s with is_paused := b } =
      (processGov ctx g now s).map (fun t =>
        match g with
        | GovernanceInstruction.setPaused _ => t
        | _ => { t with is_paused := b }) := by
  cases g <;>
    simp only [processGov, Except.map] <;>
    (repeat' split) <;>
    (try simp_all) <;>
    (try subst_vars) <;>
    (try simp_all)

/-- Mapping a function over an Except value does not change whether,
and with which error, it fails. -/
theorem except_map_error_iff {ε α β : Type} (x : Except ε α) (f : α → β) (e : ε) :
    x.map f = Except.error e ↔ x = Except.error e := by
  cases x <;> simp [Except.map]

/-- Claim C10: governance instructions are processed without consulting
the pause flag: on a paused record each governance operation fails in
exactly the ways it fails on the unpaused record (only its own
preconditions and the signature check apply), and in particular
SetPaused(false) succeeds while paused, unpausing the pool. -/
theorem claim10_governance_ignores_pause {n : Nat} (ctx : GovCtx) (s : PoolState n)
    (now : Int) (hp : s.is_paused = true) :
    (∀ (g : GovernanceInstruction) (e : PoolError),
      processGov ctx g now s = Except.error e ↔
        processGov ctx g now { s with is_paused := false } = Except.error e) ∧
    (ctx.governance_account_key = s.governance_key → ctx.governance_is_signer = true →
      processGov ctx (GovernanceInstruction.setPaused false) now s =
        Except.ok { s with is_paused := false }) := by
  constructor
  · intro g e
    rw [processGov_ignores_pause ctx g now s false, except_map_error_iff]
  · intro hkey hsig
    simp [processGov, hkey, hsig]

/-- With the pause gate and the account checks passed, a DeFi
instruction reduces to its dispatch branch followed by the common
epilogue (optional governance mint, previous-depth update). -/
theorem processDefi_eq_branch {n : Nat} (inv : Invariant n) (ctx : DeFiCtx n)
    (s : PoolState n) (d : DeFiInstruction n) (now : Int)
    (hp : s.is_paused = false ∨ d.isRemoveUniform = true) (hv : ctx.Valid s) :
    processDefi inv ctx s d now =
      match defiBranch inv ctx s d now with
      | Except.error e => Except.error e
      | Except.ok (effects, governance_mint_amount, latest_depth) =>
        Except.ok
          (effects ++
            (if governance_mint_amount > 0 then [Effect.mintGov governance_mint_amount]
              else []),
            { s with previous_depth := latest_depth }) := by
  obtain ⟨h1, h2, h3, h4⟩ := hv
  unfold processDefi
  rw [if_neg (by rcases hp with hp | hp <;> simp [hp])]
  rw [h1]
  simp [h2, h3, h4]

/-- The rational value represented by a decimal. -/
def Dec.val (d : Dec) : ℚ := (d.m : ℚ) / 10 ^ d.p

theorem Dec.val_nonneg (d : Dec) : 0 ≤ d.val := by
  unfold Dec.val
  positivity

theorem Dec.Le_iff_val (a b : Dec) : Dec.Le a b ↔ a.val ≤ b.val := by
  unfold Dec.Le Dec.val
  rw [div_le_div_iff (by positivity) (by positivity)]
  constructor <;> intro h <;> exact_mod_cast h

theorem Dec.Lt_iff_val (a b : Dec) : Dec.Lt a b ↔ a.val < b.val := by
  unfold Dec.Lt Dec.val
  rw [div_lt_div_iff (by positivity) (by positivity)]
  constructor <;> intro h <;> exact_mod_cast h

theorem Dec.one_val : Dec.one.val = 1 := by
  unfold Dec.one Dec.val
  norm_num

theorem Dec.zero_val : Dec.zero.val = 0 := by
  unfold Dec.zero Dec.val
  norm_num

/-- The only error checked addition produces is a numeric overflow. -/
theorem Dec.add_error_eq (a b : Dec) (e : PoolError)
    (h : Dec.add a b = Except.error e) : e = PoolError.numericOverflow := by
  simp only [Dec.add] at h
  split at h
  · exact absurd h (by simp)
  · injection h with h'
    exact h'.symm

/-- A successful checked addition is exact on values. -/
theorem Dec.add_ok_val (a b c : Dec) (h : Dec.add a b = Except.ok c) :
    c.val = a.val + b.val := by
  simp only [Dec.add] at h
  split at h
  · injection h with h'
    subst h'
    unfold Dec.val
    have ha : (10 : ℚ) ^ (a.p ⊔ b.p) = 10 ^ (a.p ⊔ b.p - a.p) * 10 ^ a.p := by
      rw [← pow_add]
      congr 1
      omega
    have hb : (10 : ℚ) ^ (a.p ⊔ b.p) = 10 ^ (a.p ⊔ b.p - b.p) * 10 ^ b.p := by
      rw [← pow_add]
      congr 1
      omega
    push_cast
    rw [add_div]
    congr 1
    · rw [ha, mul_comm ((a.m : ℚ)) _,
        mul_div_mul_left _ _ (by positivity : ((10 : ℚ) ^ (a.p ⊔ b.p - a.p)) ≠ 0)]
    · rw [hb, mul_comm ((b.m : ℚ)) _,
        mul_div_mul_left _ _ (by positivity : ((10 : ℚ) ^ (a.p ⊔ b.p - b.p)) ≠ 0)]
  · exact absurd h (by simp)

/-- A mantissa strictly below one unit: the value is below one exactly
when the mantissa is below the point scale. -/
theorem Dec.val_lt_one_iff (d : Dec) : d.val < 1 ↔ d.m < 10 ^ d.p := by
  unfold Dec.val
  rw [div_lt_one (by positivity)]
  constructor <;> intro h <;> exact_mod_cast h

/-- Checked addition succeeds whenever the value sum is below one (and
the points are in the representable range). -/
theorem Dec.add_ok_of_val_lt_one (a b : Dec) (hpa : a.p ≤ 19) (hpb : b.p ≤ 19)
    (h : a.val + b.val < 1) :
    Dec.add a b =
      Except.ok
        ⟨a.m * 10 ^ (max a.p b.p - a.p) + b.m * 10 ^ (max a.p b.p - b.p), max a.p b.p⟩ := by
  have ha1 : a.val < 1 :=
    lt_of_le_of_lt (le_add_of_nonneg_right (Dec.val_nonneg b)) h
  have hb1 : b.val < 1 :=
    lt_of_le_of_lt (le_add_of_nonneg_left (Dec.val_nonneg a)) h
  have hma : a.m < 10 ^ a.p := (Dec.val_lt_one_iff a).mp ha1
  have hmb : b.m < 10 ^ b.p := (Dec.val_lt_one_iff b).mp hb1
  have hka : a.m * 10 ^ (max a.p b.p - a.p) < 10 ^ max a.p b.p := by
    calc a.m * 10 ^ (max a.p b.p - a.p) < 10 ^ a.p * 10 ^ (max a.p b.p - a.p) := by
          exact (Nat.mul_lt_mul_right (by positivity)).mpr hma
      _ = 10 ^ max a.p b.p := by
          rw [← pow_add]
          congr 1
          omega
  have hkb : b.m * 10 ^ (max a.p b.p - b.p) < 10 ^ max a.p b.p := by
    calc b.m * 10 ^ (max a.p b.p - b.p) < 10 ^ b.p * 10 ^ (max a.p b.p - b.p) := by
          exact (Nat.mul_lt_mul_right (by positivity)).mpr hmb
      _ = 10 ^ max a.p b.p := by
          rw [← pow_add]
          congr 1
          omega
  have hsum : a.m * 10 ^ (max a.p b.p - a.p) + b.m * 10 ^ (max a.p b.p - b.p) <
      10 ^ max a.p b.p := by
    have hq : ((a.m * 10 ^ (max a.p b.p - a.p) + b.m * 10 ^ (max a.p b.p - b.p) : Nat) : ℚ) <
        ((10 ^ max a.p b.p : Nat) : ℚ) := by
      push_cast
      have hca : ((a.m : ℚ) * 10 ^ (max a.p b.p - a.p)) = a.val * 10 ^ max a.p b.p := by
        unfold Dec.val
        rw [div_mul_eq_mul_div, eq_div_iff (by positivity), mul_assoc, ← pow_add]
        congr 2
        omega
      have hcb : ((b.m : ℚ) * 10 ^ (max a.p b.p - b.p)) = b.val * 10 ^ max a.p b.p := by
        unfold Dec.val
        rw [div_mul_eq_mul_div, eq_div_iff (by positivity), mul_assoc, ← pow_add]
        congr 2
        omega
      rw [hca, hcb, ← add_mul]
      calc (a.val + b.val) * 10 ^ max a.p b.p < 1 * 10 ^ max a.p b.p := by
            apply mul_lt_mul_of_pos_right h
            positivity
        _ = 10 ^ max a.p b.p := one_mul _
    exact_mod_cast hq
  have hbound : (10 : Nat) ^ max a.p b.p ≤ 10 ^ 19 := by
    apply Nat.pow_le_pow_right (by norm_num)
    omega
  have hu : (10 : Nat) ^ 19 < u64Bound := by
    unfold u64Bound
    norm_num
  unfold Dec.add
  rw [if_pos ⟨by omega, by omega, by omega⟩]

/-- PoolFee construction succeeds on any value strictly below one. -/
theorem PoolFee.new_ok_of_val_lt_one (d : Dec) (h : d.val < 1) :
    PoolFee.new d = Except.ok ⟨d⟩ := by
  unfold PoolFee.new
  rw [if_pos ((Dec.Lt_iff_val d Dec.one).mpr (by rw [Dec.one_val]; exact h))]

/-- The only error PoolFee construction produces is InvalidFeeInput. -/
theorem PoolFee.new_error_eq (d : Dec) (e : PoolError)
    (h : PoolFee.new d = Except.error e) : e = PoolError.invalidFeeInput := by
  unfold PoolFee.new at h
  split at h
  · exact absurd h (by simp)
  · injection h with h'
    exact h'.symm

/-- The only error amp-factor construction produces is the value
validation error. -/
theorem ampFactor_new_error_eq (v : Dec) (e : PoolError)
    (h : AmpFactor.new v = Except.error e) : e = PoolError.invalidAmpFactorValue := by
  unfold AmpFactor.new at h
  split at h
  · exact absurd h (by simp)
  · injection h with h'
    exact h'.symm

/-- The only error the duplicate-key step produces is DuplicateAccount. -/
theorem checkDup_error_eq (seen : List Nat) (k : Nat) (e : PoolError)
    (h : checkDup seen k = Except.error e) : e = PoolError.duplicateAccount := by
  unfold checkDup at h
  split at h
  · split at h
    · injection h with h'
      exact h'.symm
    · exact absurd h (by simp)
  · exact absurd h (by simp)

/-- The only error the duplicate-key scan produces is DuplicateAccount. -/
theorem dupScan_error_eq (ks : List Nat) : ∀ (seen : List Nat) (e : PoolError),
    dupScan seen ks = Except.error e → e = PoolError.duplicateAccount := by
  induction ks with
  | nil => intro seen e h; exact absurd h (by simp [dupScan])
  | cons k ks ih =>
    intro seen e h
    unfold dupScan at h
    split at h
    · exact ih _ _ h
    · rename_i e' heq
      injection h with h'
      exact h' ▸ checkDup_error_eq seen k e' heq

/-- An error of a sequential check run is an error of one of the
checks. -/
theorem iterChecks_error {α : Type} (f : α → Except PoolError Unit) (l : List α)
    (e : PoolError) (h : iterChecks f l = Except.error e) : ∃ x ∈ l, f x = Except.error e := by
  induction l with
  | nil => exact absurd h (by simp [iterChecks])
  | cons x xs ih =>
    unfold iterChecks at h
    split at h
    · obtain ⟨y, hy, hfy⟩ := ih h
      exact ⟨y, List.mem_cons_of_mem _ hy, hfy⟩
    · rename_i e' heq
      injection h with h'
      exact ⟨x, List.mem_cons_self _ _, h' ▸ heq⟩

/-- A vault check never reports a fee problem. -/
theorem vaultCheck_error_ne_fee {n : Nat} (ctx : InitCtx n) (auth : Nat) (i : Fin n)
    (e : PoolError) (h : vaultCheck ctx auth i = Except.error e) :
    e ≠ PoolError.invalidFeeInput := by
  unfold vaultCheck at h
  split at h
  · injection h with h'
    simp [← h']
  · split at h
    · injection h with h'
      simp [← h']
    · split at h
      · injection h with h'
        simp [← h']
      · split at h
        · injection h with h'
          simp [← h']
        · split at h
          · injection h with h'
            simp [← h']
          · exact absurd h (by simp)

/-- If the account-validation phase of Init reports InvalidFeeInput,
it came from one of the two PoolFee constructions. -/
theorem processInitChecked_fee_error {n : Nat} (ctx : InitCtx n) (nonce : Nat)
    (amp l g : Dec)
    (h : processInitChecked ctx nonce amp l g = Except.error PoolError.invalidFeeInput) :
    PoolFee.new l = Except.error PoolError.invalidFeeInput ∨
      PoolFee.new g = Except.error PoolError.invalidFeeInput := by
  simp only [processInitChecked] at h
  repeat' split at h
  all_goals
    first
    | (injection h with h'
       subst h'
       first
       | exact absurd (checkDup_error_eq _ _ _ (by assumption)) (by simp)
       | exact absurd (dupScan_error_eq _ _ _ (by assumption)) (by simp)
       | exact absurd (ampFactor_new_error_eq _ _ (by assumption)) (by simp)
       | (rename_i heq
          obtain ⟨x, hx, hfx⟩ := iterChecks_error _ _ _ heq
          exact absurd rfl (vaultCheck_error_ne_fee _ _ _ _ hfx))
       | exact Or.inl (by assumption)
       | exact Or.inr (by assumption))
    | exact absurd h (by simp)

/-- If PrepareFeeChange reports InvalidFeeInput, either the fee-sum
gate fired or one of the two PoolFee constructions failed. -/
theorem processGov_prepare_fee_error {n : Nat} (ctx : GovCtx) (now : Int) (s : PoolState n)
    (l g : Dec)
    (h : processGov ctx (GovernanceInstruction.prepareFeeChange l g) now s =
      Except.error PoolError.invalidFeeInput) :
    (∃ sum, Dec.add l g = Except.ok sum ∧ Dec.Le Dec.one sum) ∨
      PoolFee.new l = Except.error PoolError.invalidFeeInput ∨
      PoolFee.new g = Except.error PoolError.invalidFeeInput := by
  simp only [processGov] at h
  repeat' split at h
  all_goals
    first
    | exact Or.inl ⟨_, by assumption, by assumption⟩
    | (injection h with h'
       subst h'
       first
       | exact absurd (Dec.add_error_eq _ _ _ (by assumption)) (by simp)
       | exact Or.inr (Or.inl (by assumption))
       | exact Or.inr (Or.inr (by assumption)))
    | exact absurd h (by simp)

/-- A successful checked addition compares to one exactly as the value
sum does. -/
theorem Dec.add_ok_le_one_iff (l g sum : Dec) (h : Dec.add l g = Except.ok sum) :
    Dec.Le Dec.one sum ↔ 1 ≤ l.val + g.val := by
  rw [Dec.Le_iff_val, Dec.one_val, Dec.add_ok_val l g sum h]

/-- A fee input close to one: nineteen nines after the decimal point. -/
def decBig : Dec := ⟨10 ^ 19 - 1, 19⟩

/-- Counterexample for C5 as frozen: two valid fee inputs of value
0.9999999999999999999 each sum to at least 1, so the claim predicts
InvalidFeeInput, but the checked decimal addition overflows the 64-bit
mantissa first and Init fails with NumericOverflow. -/
theorem claim5_fee_input_counterexample :
    1 ≤ decBig.val + decBig.val ∧
    processInit baseInitCtx 1 ⟨1000, 0⟩ decBig decBig =
      Except.error PoolError.numericOverflow := by
  constructor
  · norm_num [Dec.val, decBig]
  · rfl

/-- Claim C5 (amended): Init and PrepareFeeChange fail with
InvalidFeeInput exactly when the checked sum of the supplied fees
computes without mantissa overflow and is at least 1; when the checked
addition overflows (possible only for sums at least 1) they fail with
NumericOverflow instead; and with a value sum strictly below 1 (which
never overflows) the fee gate passes: Init proceeds to the account
validation phase, and PrepareFeeChange stores the prepared fees and
sets the fee transition timestamp to now plus ENACT_DELAY (three
days). -/
theorem claim5_fee_input_check_amended (l g : Dec) (hpl : l.p ≤ 19) (hpg : g.p ≤ 19) :
    (∀ (n : Nat) (ctx : InitCtx n) (nonce : Nat) (amp : Dec),
      (∀ e, Dec.add l g = Except.error e →
        processInit ctx nonce amp l g = Except.error e ∧ e = PoolError.numericOverflow) ∧
      (processInit ctx nonce amp l g = Except.error PoolError.invalidFeeInput ↔
        ∃ sum, Dec.add l g = Except.ok sum ∧ 1 ≤ l.val + g.val) ∧
      (l.val + g.val < 1 →
        processInit ctx nonce amp l g = processInitChecked ctx nonce amp l g)) ∧
    (∀ (n : Nat) (gctx : GovCtx) (now : Int) (s : PoolState n),
      gctx.governance_account_key = s.governance_key →
      gctx.governance_is_signer = true →
      ((∀ e, Dec.add l g = Except.error e →
        processGov gctx (GovernanceInstruction.prepareFeeChange l g) now s =
          Except.error e ∧ e = PoolError.numericOverflow) ∧
      (processGov gctx (GovernanceInstruction.prepareFeeChange l g) now s =
          Except.error PoolError.invalidFeeInput ↔
        ∃ sum, Dec.add l g = Except.ok sum ∧ 1 ≤ l.val + g.val) ∧
      (l.val + g.val < 1 →
        processGov gctx (GovernanceInstruction.prepareFeeChange l g) now s =
          Except.ok
            { s with
              prepared_lp_fee := ⟨l⟩
              prepared_governance_fee := ⟨g⟩
              fee_transition_ts := now + ENACT_DELAY }))) := by
  have hl_lt : l.val + g.val < 1 → l.val < 1 := fun h =>
    lt_of_le_of_lt (le_add_of_nonneg_right (Dec.val_nonneg g)) h
  have hg_lt : l.val + g.val < 1 → g.val < 1 := fun h =>
    lt_of_le_of_lt (le_add_of_nonneg_left (Dec.val_nonneg l)) h
  constructor
  · intro n ctx nonce amp
    refine ⟨?_, ⟨?_, ?_⟩, ?_⟩
    · intro e he
      refine ⟨?_, Dec.add_error_eq _ _ _ he⟩
      simp only [processInit]
      rw [he]
    · intro h
      simp only [processInit] at h
      split at h
      · rename_i e heq
        injection h with h'
        exact absurd (Dec.add_error_eq _ _ _ heq) (by simp [h'])
      · rename_i sum hsum
        split at h
        · rename_i hle
          exact ⟨sum, hsum, (Dec.add_ok_le_one_iff l g sum hsum).mp hle⟩
        · rename_i hle
          rcases processInitChecked_fee_error ctx nonce amp l g h with hf | hf
          · have : l.val < 1 := by
              by_contra hc
              exact hle ((Dec.add_ok_le_one_iff l g sum hsum).mpr
                (le_add_of_le_of_nonneg (not_lt.mp hc) (Dec.val_nonneg g)))
            rw [PoolFee.new_ok_of_val_lt_one l this] at hf
            exact absurd hf (by simp)
          · have : g.val < 1 := by
              by_contra hc
              exact hle ((Dec.add_ok_le_one_iff l g sum hsum).mpr
                (le_add_of_nonneg_of_le (Dec.val_nonneg l) (not_lt.mp hc)))
            rw [PoolFee.new_ok_of_val_lt_one g this] at hf
            exact absurd hf (by simp)
    · rintro ⟨sum, hsum, hge⟩
      simp only [processInit, hsum]
      rw [if_pos ((Dec.add_ok_le_one_iff l g sum hsum).mpr hge)]
    · intro hlt
      have hadd := Dec.add_ok_of_val_lt_one l g hpl hpg hlt
      simp only [processInit, hadd]
      rw [if_neg (fun hc =>
        absurd ((Dec.add_ok_le_one_iff l g _ hadd).mp hc) (not_le.mpr hlt))]
  · intro n gctx now s hkey hsig
    refine ⟨?_, ⟨?_, ?_⟩, ?_⟩
    · intro e he
      refine ⟨?_, Dec.add_error_eq _ _ _ he⟩
      simp only [processGov]
      rw [if_neg (by simp [hkey]), if_neg (by simp [hsig])]
      simp only [he]
    · intro h
      rcases processGov_prepare_fee_error gctx now s l g h with ⟨sum, hsum, hle⟩ | hf | hf
      · exact ⟨sum, hsum, (Dec.add_ok_le_one_iff l g sum hsum).mp hle⟩
      · have hl1 : ¬l.val < 1 := by
          intro hc
          rw [PoolFee.new_ok_of_val_lt_one l hc] at hf
          exact absurd hf (by simp)
        rcases hadd : Dec.add l g with e | sum
        · exfalso
          have hno := Dec.add_error_eq _ _ _ hadd
          subst hno
          have hcomp : processGov gctx (GovernanceInstruction.prepareFeeChange l g) now s =
              Except.error PoolError.numericOverflow := by
            simp only [processGov]
            rw [if_neg (by simp [hkey]), if_neg (by simp [hsig])]
            simp only [hadd]
          rw [hcomp] at h
          exact absurd h (by simp)
        · exact ⟨sum, rfl, le_add_of_le_of_nonneg (not_lt.mp hl1) (Dec.val_nonneg g)⟩
      · have hg1 : ¬g.val < 1 := by
          intro hc
          rw [PoolFee.new_ok_of_val_lt_one g hc] at hf
          exact absurd hf (by simp)
        rcases hadd : Dec.add l g with e | sum
        · exfalso
          have hno := Dec.add_error_eq _ _ _ hadd
          subst hno
          have hcomp : processGov gctx (GovernanceInstruction.prepareFeeChange l g) now s =
              Except.error PoolError.numericOverflow := by
            simp only [processGov]
            rw [if_neg (by simp [hkey]), if_neg (by simp [hsig])]
            simp only [hadd]
          rw [hcomp] at h
          exact absurd h (by simp)
        · exact ⟨sum, rfl, le_add_of_nonneg_of_le (Dec.val_nonneg l) (not_lt.mp hg1)⟩
    · rintro ⟨sum, hsum, hge⟩
      simp only [processGov]
      rw [if_neg (by simp [hkey]), if_neg (by simp [hsig])]
      simp only [hsum]
      rw [if_pos ((Dec.add_ok_le_one_iff l g sum hsum).mpr hge)]
    · intro hlt
      have hadd := Dec.add_ok_of_val_lt_one l g hpl hpg hlt
      simp only [processGov]
      rw [if_neg (by simp [hkey]), if_neg (by simp [hsig])]
      simp only [hadd]
      rw [if_neg (fun hc =>
        absurd ((Dec.add_ok_le_one_iff l g _ hadd).mp hc) (not_le.mpr hlt))]
      rw [PoolFee.new_ok_of_val_lt_one l (hl_lt hlt), PoolFee.new_ok_of_val_lt_one g
        (hg_lt hlt)]

/-- Witness for the amended C5 at concrete fees: 0.003 + 0.001 passes
the gate on both paths (Init reaches account validation and
PrepareFeeChange commits the prepared fees with a three-day delay),
while 0.6 + 0.5 fails with InvalidFeeInput. -/
theorem claim5_fee_input_check_amended_witness :
    processInit baseInitCtx 1 ⟨1000, 0⟩ ⟨3, 3⟩ ⟨1, 3⟩ =
      processInitChecked baseInitCtx 1 ⟨1000, 0⟩ ⟨3, 3⟩ ⟨1, 3⟩ ∧
    processGov baseGovCtx (GovernanceInstruction.prepareFeeChange ⟨3, 3⟩ ⟨1, 3⟩) 10
        basePoolState =
      Except.ok
        { basePoolState with
          prepared_lp_fee := ⟨⟨3, 3⟩⟩
          prepared_governance_fee := ⟨⟨1, 3⟩⟩
          fee_transition_ts := 10 + ENACT_DELAY } ∧
    processInit baseInitCtx 1 ⟨1000, 0⟩ ⟨6, 1⟩ ⟨5, 1⟩ =
      Except.error PoolError.invalidFeeInput :=
  ⟨((claim5_fee_input_check_amended ⟨3, 3⟩ ⟨1, 3⟩ (by norm_num) (by norm_num)).1 2
      baseInitCtx 1 ⟨1000, 0⟩).2.2 (by norm_num [Dec.val]),
   ((claim5_fee_input_check_amended ⟨3, 3⟩ ⟨1, 3⟩ (by norm_num) (by norm_num)).2 2
      baseGovCtx 10 basePoolState rfl rfl).2.2 (by norm_num [Dec.val]),
   ((claim5_fee_input_check_amended ⟨6, 1⟩ ⟨5, 1⟩ (by norm_num) (by norm_num)).1 2
      baseInitCtx 1 ⟨1000, 0⟩).2.1.mpr ⟨⟨11, 1⟩, rfl, by norm_num [Dec.val]⟩⟩

/-- Truncating the mantissa digit by digit loses nothing of the floor
as long as the floored value itself fits 64 bits. -/
theorem Dec.trunc_truncFit (p : Nat) : ∀ m : Nat, m / 10 ^ p < u64Bound →
    (Dec.truncFit m p).trunc = m / 10 ^ p := by
  induction p with
  | zero =>
    intro m h
    rw [pow_zero, Nat.div_one] at h
    unfold Dec.truncFit
    rw [if_pos h]
    simp [Dec.trunc]
  | succ q ih =>
    intro m h
    unfold Dec.truncFit
    by_cases hm : m < u64Bound
    · rw [if_pos hm]
      simp [Dec.trunc]
    · rw [if_neg hm]
      have hdd : m / 10 / 10 ^ q = m / 10 ^ (q + 1) := by
        rw [Nat.div_div_eq_div_mul, pow_succ, mul_comm (10 ^ q) 10]
      rw [ih (m / 10) (by rw [hdd]; exact h), hdd]

/-- The truncated product of a decimal and a natural is the floor of
the exact product, whenever that floor fits 64 bits. -/
theorem Dec.mulNat_trunc (d : Dec) (k : Nat) (h : d.m * k / 10 ^ d.p < u64Bound) :
    (Dec.mulNat d k).trunc = d.m * k / 10 ^ d.p :=
  Dec.trunc_truncFit d.p (d.m * k) h

/-- The user-share division of RemoveUniform: for a burn amount within
the supply, the quotient carries the full 19 decimal places. -/
theorem Dec.divNat_share (burn supply : Nat) (h0 : supply ≠ 0) (hle : burn ≤ supply) :
    Dec.divNat (Dec.ofNat burn) supply = Except.ok ⟨burn * 10 ^ 19 / supply, 19⟩ := by
  have hfit : burn * 10 ^ 19 / supply < u64Bound := by
    have h1 : burn * 10 ^ 19 / supply ≤ supply * 10 ^ 19 / supply :=
      Nat.div_le_div_right (Nat.mul_le_mul_right _ hle)
    have h2 : supply * 10 ^ 19 / supply = 10 ^ 19 := by
      rw [mul_comm]
      exact Nat.mul_div_cancel _ (Nat.pos_of_ne_zero h0)
    unfold u64Bound
    calc burn * 10 ^ 19 / supply ≤ 10 ^ 19 := le_trans h1 (le_of_eq h2)
      _ < 2 ^ 64 := by norm_num
  unfold Dec.divNat
  rw [if_neg h0]
  have he : Dec.divExtra 19 (Dec.ofNat burn).m supply (Dec.ofNat burn).p = 19 := by
    unfold Dec.divExtra
    rw [if_pos ⟨by simp [Dec.ofNat], by simpa [Dec.ofNat] using hfit⟩]
  rw [he]
  simp [Dec.ofNat]

/-- Claim C3 (amended): a RemoveUniform of 0 < burn ≤ supply that
passes the minimum-output checks makes no invariant-solver call (the
result is the same for every solver), charges no fee (the effect list
is exactly the payouts followed by the LP burn, with no governance
mint), pays out for each token the floor of B times s over 10^19 where
s is the 19-decimal-digit truncation of burn/supply (not the exact
floor of B times burn over supply), and stores as previous depth
D minus the floor of D times (s/10) over 10^18 (not D times
(supply - burn)/supply). -/
theorem claim3_remove_uniform_amended {n : Nat} (inv : Invariant n) (ctx : DeFiCtx n)
    (s : PoolState n) (now : Int) (burn : Nat) (mins : Fin n → Nat)
    (hv : ctx.Valid s) (h0 : 0 < burn) (hle : burn ≤ ctx.lp_total_supply)
    (hbal : ∀ i, ctx.pool_balances i < u64Bound)
    (hmins : ∀ i, mins i ≤
      ctx.pool_balances i * (burn * 10 ^ 19 / ctx.lp_total_supply) / 10 ^ 19) :
    processDefi inv ctx s (DeFiInstruction.removeUniform burn mins) now =
      Except.ok
        (((List.finRange n).map fun i =>
            Effect.transferOut i
              (ctx.pool_balances i * (burn * 10 ^ 19 / ctx.lp_total_supply) / 10 ^ 19))
          ++ [Effect.burnUser burn],
          { s with previous_depth :=
              s.previous_depth -
                s.previous_depth * (burn * 10 ^ 19 / ctx.lp_total_supply / 10) / 10 ^ 18 }) ∧
    (∀ inv' : Invariant n,
      processDefi inv' ctx s (DeFiInstruction.removeUniform burn mins) now =
        processDefi inv ctx s (DeFiInstruction.removeUniform burn mins) now) := by
  have hsup : ctx.lp_total_supply ≠ 0 := by omega
  have hmle : burn * 10 ^ 19 / ctx.lp_total_supply ≤ 10 ^ 19 := by
    have h1 : burn * 10 ^ 19 / ctx.lp_total_supply ≤
        ctx.lp_total_supply * 10 ^ 19 / ctx.lp_total_supply :=
      Nat.div_le_div_right (Nat.mul_le_mul_right _ hle)
    have h2 : ctx.lp_total_supply * 10 ^ 19 / ctx.lp_total_supply = 10 ^ 19 := by
      rw [mul_comm]
      exact Nat.mul_div_cancel _ (Nat.pos_of_ne_zero hsup)
    exact le_trans h1 (le_of_eq h2)
  have htr : ∀ i : Fin n,
      (Dec.mulNat ⟨burn * 10 ^ 19 / ctx.lp_total_supply, 19⟩ (ctx.pool_balances i)).trunc =
        ctx.pool_balances i * (burn * 10 ^ 19 / ctx.lp_total_supply) / 10 ^ 19 := by
    intro i
    rw [mul_comm (ctx.pool_balances i)]
    apply Dec.mulNat_trunc
    have h1 : (burn * 10 ^ 19 / ctx.lp_total_supply) * ctx.pool_balances i / 10 ^ 19 ≤
        10 ^ 19 * ctx.pool_balances i / 10 ^ 19 :=
      Nat.div_le_div_right (Nat.mul_le_mul_right _ hmle)
    have h2 : 10 ^ 19 * ctx.pool_balances i / 10 ^ 19 = ctx.pool_balances i :=
      Nat.mul_div_cancel_left _ (by norm_num)
    exact lt_of_le_of_lt (le_trans h1 (le_of_eq h2)) (hbal i)
  have hq : ∀ m : Nat, m * 10 ^ 18 / 10 ^ 19 = m / 10 := by
    intro m
    rw [show (10 : Nat) ^ 19 = 10 ^ 18 * 10 from by norm_num, mul_comm m (10 ^ 18),
      Nat.mul_div_mul_left _ _ (by norm_num : (0 : Nat) < 10 ^ 18)]
  have hdep :
      (Dec.mulNat ⟨burn * 10 ^ 19 / ctx.lp_total_supply, 19⟩ (10 ^ 18)).trunc =
        burn * 10 ^ 19 / ctx.lp_total_supply / 10 := by
    rw [Dec.mulNat_trunc _ _ (by
      rw [hq (burn * 10 ^ 19 / ctx.lp_total_supply)]
      have : burn * 10 ^ 19 / ctx.lp_total_supply / 10 ≤ 10 ^ 19 :=
        le_trans (Nat.div_le_self _ _) hmle
      unfold u64Bound
      omega)]
    exact hq (burn * 10 ^ 19 / ctx.lp_total_supply)
  have hbr : ∀ inv'' : Invariant n,
      defiBranch inv'' ctx s (DeFiInstruction.removeUniform burn mins) now =
        Except.ok
          (((List.finRange n).map fun i =>
              Effect.transferOut i
                (ctx.pool_balances i * (burn * 10 ^ 19 / ctx.lp_total_supply) / 10 ^ 19))
            ++ [Effect.burnUser burn], 0,
            s.previous_depth -
              s.previous_depth * (burn * 10 ^ 19 / ctx.lp_total_supply / 10) / 10 ^ 18) := by
    intro inv''
    simp only [defiBranch]
    rw [if_neg (by omega)]
    simp only [Dec.divNat_share burn ctx.lp_total_supply hsup hle]
    simp only [htr, hdep]
    rw [if_neg (by
      rintro ⟨i, hi⟩
      exact absurd hi (not_lt.mpr (hmins i)))]
  constructor
  · rw [processDefi_eq_branch inv ctx s (DeFiInstruction.removeUniform burn mins) now
      (Or.inr rfl) hv, hbr inv]
    simp
  · intro inv'
    rw [processDefi_eq_branch inv ctx s (DeFiInstruction.removeUniform burn mins) now
      (Or.inr rfl) hv,
      processDefi_eq_branch inv' ctx s (DeFiInstruction.removeUniform burn mins) now
      (Or.inr rfl) hv, hbr inv, hbr inv']

/-- A two-token pool holding three quintillion units of each token with
an LP supply of three and a recorded depth of three. -/
def ruCtx : DeFiCtx 2 :=
  { baseDeFiCtx with
    pool_balances := fun _ => 3 * 10 ^ 18
    lp_total_supply := 3 }

/-- The matching pool record with previous depth three. -/
def ruState : PoolState 2 := { basePoolState with previous_depth := 3 }

/-- Counterexample for C3 as frozen: burning 1 of 3 LP against
balances of 3 * 10^18 pays out 999999999999999999 per token, not the
exact floor 10^18, and leaves previous_depth at 3, not
3 * (3 - 1) / 3 = 2: the decimal share burn/supply is truncated to 19
decimal digits before multiplying. -/
theorem claim3_remove_uniform_counterexample :
    (processDefi invZero ruCtx ruState (DeFiInstruction.removeUniform 1 (fun _ => 0)) 7).map
        (fun r => (r.1, r.2.previous_depth)) =
      Except.ok
        ([Effect.transferOut 0 999999999999999999, Effect.transferOut 1 999999999999999999,
          Effect.burnUser 1], 3) ∧
    (999999999999999999 : Nat) ≠ 3 * 10 ^ 18 * 1 / 3 ∧
    (3 : Nat) ≠ 3 * (3 - 1) / 3 := by
  refine ⟨?_, by norm_num, by norm_num⟩
  rfl

/-- Witness for the amended C3 at the same concrete pool: the payout
and depth follow the truncated-share formulas. -/
theorem claim3_remove_uniform_amended_witness :
    processDefi invZero ruCtx ruState (DeFiInstruction.removeUniform 1 (fun _ => 0)) 7 =
      Except.ok
        (((List.finRange 2).map fun i =>
            Effect.transferOut i
              (ruCtx.pool_balances i * (1 * 10 ^ 19 / ruCtx.lp_total_supply) / 10 ^ 19))
          ++ [Effect.burnUser 1],
          { ruState with previous_depth :=
              ruState.previous_depth -
                ruState.previous_depth * (1 * 10 ^ 19 / ruCtx.lp_total_supply / 10) /
                  10 ^ 18 }) :=
  (claim3_remove_uniform_amended invZero ruCtx ruState 7 1 (fun _ => 0) (by decide)
    (by decide) (by decide) (by decide) (by decide)).1

/-- The per-operation shape of the effect list before the trailing
governance mint: swaps transfer in before transferring out,
RemoveExactBurn and RemoveExactOutput burn before paying out,
RemoveUniform pays out before burning, Add transfers in before
minting. -/
def canonicalBody {n : Nat} : DeFiInstruction n → List (Effect n) → Prop
  | DeFiInstruction.add _ _, body =>
    ∃ ins m, body = ins ++ [Effect.mintUser m] ∧ ∀ e ∈ ins, e.isTransferIn = true
  | DeFiInstruction.swapExactInput _ _ _, body =>
    ∃ ins i a, body = ins ++ [Effect.transferOut i a] ∧ ∀ e ∈ ins, e.isTransferIn = true
  | DeFiInstruction.swapExactOutput _ _ _, body =>
    ∃ i a outs, body = Effect.transferIn i a :: outs ∧ ∀ e ∈ outs, e.isTransferOut = true
  | DeFiInstruction.removeUniform _ _, body =>
    ∃ outs b, body = outs ++ [Effect.burnUser b] ∧ ∀ e ∈ outs, e.isTransferOut = true
  | DeFiInstruction.removeExactBurn _ _ _, body =>
    ∃ b i a, body = [Effect.burnUser b, Effect.transferOut i a]
  | DeFiInstruction.removeExactOutput _ _, body =>
    ∃ b outs, body = Effect.burnUser b :: outs ∧ ∀ e ∈ outs, e.isTransferOut = true

/-- The trailing governance-fee mint: absent, or a single strictly
positive mint. -/
def govTailOk {n : Nat} (tail : List (Effect n)) : Prop :=
  tail = [] ∨ ∃ a, 0 < a ∧ tail = [Effect.mintGov a]

/-- Members of the flattened per-token singleton lists are the listed
effects. -/
theorem mem_flatten_ofFn_ite {n : Nat} (g : Fin n → Nat) (c : Fin n → Nat → Effect n)
    (e : Effect n)
    (h : e ∈ (List.ofFn fun i => if g i > 0 then [c i (g i)] else []).flatten) :
    ∃ i, e = c i (g i) := by
  rw [List.mem_flatten] at h
  obtain ⟨l, hl, hel⟩ := h
  rw [List.mem_ofFn] at hl
  obtain ⟨i, hi⟩ := hl
  refine ⟨i, ?_⟩
  rw [← hi] at hel
  have hel' : e ∈ (if g i > 0 then [c i (g i)] else []) := hel
  split at hel'
  · simpa using hel'
  · simp at hel'

/-- A successful dispatch branch produces effects of the canonical
per-operation shape. -/
theorem defiBranch_ok_shape {n : Nat} (inv : Invariant n) (ctx : DeFiCtx n)
    (s : PoolState n) (d : DeFiInstruction n) (now : Int) (effs : List (Effect n))
    (gov dep : Nat) (h : defiBranch inv ctx s d now = Except.ok (effs, gov, dep)) :
    canonicalBody d effs := by
  cases d with
  | add input_amounts minimum_mint_amount =>
    simp only [defiBranch] at h
    repeat' split at h
    all_goals try exact Except.noConfusion h
    simp only [Except.ok.injEq, Prod.mk.injEq] at h
    obtain ⟨h1, h2, h3⟩ := h
    subst h1
    refine ⟨_, _, rfl, ?_⟩
    intro e he
    obtain ⟨i, hi⟩ := mem_flatten_ofFn_ite _ _ e he
    rw [hi]
    rfl
  | swapExactInput exact_input_amounts output_token_index minimum_output_amount =>
    simp only [defiBranch] at h
    repeat' split at h
    all_goals try exact Except.noConfusion h
    simp only [Except.ok.injEq, Prod.mk.injEq] at h
    obtain ⟨h1, h2, h3⟩ := h
    subst h1
    refine ⟨_, _, _, rfl, ?_⟩
    intro e he
    obtain ⟨i, hi⟩ := mem_flatten_ofFn_ite _ _ e he
    rw [hi]
    rfl
  | swapExactOutput maximum_input_amount input_token_index exact_output_amounts =>
    simp only [defiBranch] at h
    repeat' split at h
    all_goals try exact Except.noConfusion h
    simp only [Except.ok.injEq, Prod.mk.injEq] at h
    obtain ⟨h1, h2, h3⟩ := h
    subst h1
    refine ⟨_, _, _, rfl, ?_⟩
    intro e he
    obtain ⟨i, hi⟩ := mem_flatten_ofFn_ite _ _ e he
    rw [hi]
    rfl
  | removeUniform exact_burn_amount minimum_output_amounts =>
    simp only [defiBranch] at h
    repeat' split at h
    all_goals try exact Except.noConfusion h
    simp only [Except.ok.injEq, Prod.mk.injEq] at h
    obtain ⟨h1, h2, h3⟩ := h
    subst h1
    refine ⟨_, _, rfl, ?_⟩
    intro e he
    rw [List.mem_map] at he
    obtain ⟨i, _, hi⟩ := he
    rw [← hi]
    rfl
  | removeExactBurn exact_burn_amount output_token_index minimum_output_amount =>
    simp only [defiBranch] at h
    repeat' split at h
    all_goals try exact Except.noConfusion h
    simp only [Except.ok.injEq, Prod.mk.injEq] at h
    obtain ⟨h1, h2, h3⟩ := h
    subst h1
    exact ⟨_, _, _, rfl⟩
  | removeExactOutput maximum_burn_amount exact_output_amounts =>
    simp only [defiBranch] at h
    repeat' split at h
    all_goals try exact Except.noConfusion h
    simp only [Except.ok.injEq, Prod.mk.injEq] at h
    obtain ⟨h1, h2, h3⟩ := h
    subst h1
    refine ⟨_, _, rfl, ?_⟩
    intro e he
    obtain ⟨i, hi⟩ := mem_flatten_ofFn_ite _ _ e he
    rw [hi]
    rfl

/-- Claim C6 (amended): every successful DeFi operation emits its
effects in the canonical order, with the governance-fee LP mint last
and only when strictly positive; swaps transfer user-to-pool before
pool-to-user, Add transfers in before minting, RemoveExactBurn and
RemoveExactOutput burn the LP before paying out, but RemoveUniform
pays out the pool tokens before burning the LP. -/
theorem claim6_canonical_order_amended {n : Nat} (inv : Invariant n) (ctx : DeFiCtx n)
    (s : PoolState n) (d : DeFiInstruction n) (now : Int) (effs : List (Effect n))
    (st : PoolState n) (h : processDefi inv ctx s d now = Except.ok (effs, st)) :
    ∃ body tail, effs = body ++ tail ∧ canonicalBody d body ∧ govTailOk tail := by
  unfold processDefi at h
  repeat' split at h
  all_goals try exact Except.noConfusion h
  all_goals
    (rename_i heq hg
     simp only [Except.ok.injEq, Prod.mk.injEq] at h
     obtain ⟨h1, h2⟩ := h)
  · exact ⟨_, _, h1.symm, defiBranch_ok_shape _ _ _ _ _ _ _ _ heq, Or.inr ⟨_, hg, rfl⟩⟩
  · exact ⟨_, _, h1.symm, defiBranch_ok_shape _ _ _ _ _ _ _ _ heq, Or.inl rfl⟩

/-- Counterexample for C6 as frozen: a successful RemoveUniform pays
out both pool tokens first and burns the user LP last, so removals do
not always burn before paying out. -/
theorem claim6_canonical_order_counterexample :
    (processDefi invZero ruCtx ruState (DeFiInstruction.removeUniform 3 (fun _ => 0)) 7).map
        (fun r => r.1) =
      Except.ok
        [Effect.transferOut 0 (3 * 10 ^ 18), Effect.transferOut 1 (3 * 10 ^ 18),
          Effect.burnUser 3] ∧
    ¬∃ (b : Nat) (rest : List (Effect 2)),
      [Effect.transferOut (0 : Fin 2) (3 * 10 ^ 18), Effect.transferOut 1 (3 * 10 ^ 18),
        Effect.burnUser 3] = Effect.burnUser b :: rest := by
  refine ⟨by rfl, ?_⟩
  rintro ⟨b, rest, hc⟩
  simp at hc

/-- Witness for the amended C6 at the same successful RemoveUniform:
its effect list decomposes into a canonical body and an empty
governance tail. -/
theorem claim6_canonical_order_amended_witness :
    ∃ body tail,
      ([Effect.transferOut (0 : Fin 2) (3 * 10 ^ 18), Effect.transferOut 1 (3 * 10 ^ 18),
        Effect.burnUser 3] : List (Effect 2)) = body ++ tail ∧
      canonicalBody (DeFiInstruction.removeUniform 3 (fun _ => (0 : Nat))) body ∧
      govTailOk tail :=
  claim6_canonical_order_amended invZero ruCtx ruState
    (DeFiInstruction.removeUniform 3 (fun _ => 0)) 7 _
    { ruState with previous_depth := 0 } (by rfl)

/-- Scanning from an empty seen list cannot fail on the first key. -/
theorem checkDup_nil_ok (k : Nat) : ∀ e, checkDup [] k ≠ Except.error e := by
  intro e h
  unfold checkDup at h
  split at h
  · rw [if_neg (by simp)] at h
    exact Except.noConfusion h
  · exact Except.noConfusion h

/-- A successful scan never had a non-zero key already in the seen
list. -/
theorem dupScan_ok_not_mem_seen (ks : List Nat) : ∀ (seen s' : List Nat),
    dupScan seen ks = Except.ok s' → ∀ k ∈ ks, k ≠ 0 → k ∉ seen := by
  induction ks with
  | nil =>
    intro seen s' _ k hk
    simp at hk
  | cons x xs ih =>
    intro seen s' hscan k hk hk0
    unfold dupScan at hscan
    rcases hc : checkDup seen x with e | s1
    · rw [hc] at hscan
      exact Except.noConfusion hscan
    · rw [hc] at hscan
      unfold checkDup at hc
      rcases List.mem_cons.mp hk with rfl | hmem
      · split at hc
        · split at hc
          · exact Except.noConfusion hc
          · rename_i hnotmem
            exact hnotmem
        · rename_i hx0
          rw [not_ne_iff] at hx0
          exact absurd hx0 hk0
      · have hks := ih _ _ hscan k hmem hk0
        split at hc
        · split at hc
          · exact Except.noConfusion hc
          · injection hc with hc'
            rw [← hc'] at hks
            exact fun hm => hks (List.mem_cons_of_mem _ hm)
        · injection hc with hc'
          rw [← hc'] at hks
          exact hks

/-- A successful scan certifies that the non-zero keys scanned were
pairwise distinct. -/
theorem dupScan_ok_nodup (ks : List Nat) : ∀ (seen s' : List Nat),
    dupScan seen ks = Except.ok s' → (ks.filter (fun k => k != 0)).Nodup := by
  induction ks with
  | nil =>
    intro seen s' _
    simp
  | cons x xs ih =>
    intro seen s' hscan
    unfold dupScan at hscan
    rcases hc : checkDup seen x with e | s1
    · rw [hc] at hscan
      exact Except.noConfusion hscan
    · rw [hc] at hscan
      by_cases hx0 : x = 0
      · rw [List.filter_cons, if_neg (by simp [hx0])]
        exact ih _ _ hscan
      · rw [List.filter_cons, if_pos (by simp [hx0]), List.nodup_cons]
        refine ⟨?_, ih _ _ hscan⟩
        intro hxf
        rw [List.mem_filter] at hxf
        have hnm := dupScan_ok_not_mem_seen xs s1 s' hscan x hxf.1 (by simpa using hxf.2)
        unfold checkDup at hc
        rw [if_pos hx0] at hc
        split at hc
        · exact Except.noConfusion hc
        · injection hc with hc'
          exact hnm (hc' ▸ List.mem_cons_self x seen)

/-- A scan of a concatenation is the sequential composition of the two
scans. -/
theorem dupScan_append (xs : List Nat) : ∀ (seen ys : List Nat),
    dupScan seen (xs ++ ys) =
      match dupScan seen xs with
      | Except.error e => Except.error e
      | Except.ok s => dupScan s ys := by
  induction xs with
  | nil =>
    intro seen ys
    simp [dupScan]
  | cons x xs ih =>
    intro seen ys
    rw [List.cons_append]
    show (match checkDup seen x with
      | Except.ok s => dupScan s (xs ++ ys)
      | Except.error e => Except.error e) = _
    rcases hc : checkDup seen x with e | s1 <;> simp [dupScan, hc, ih]

/-- Claim C9: with the fee gate and the checks before the decimal
comparison passing, Init fails with MaxDecimalDifferenceExceeded
whenever the decimal spread over the LP mint and the token mints
exceeds 8; with every other check passing, it fails with
DuplicateAccount whenever two supplied non-zero account keys are
equal; and on success the persisted record has previous depth 0, the
pause bit clear, both transition timestamps 0, and each decimal
equalizer equal to the maximum decimals minus that mint's decimals. -/
theorem claim9_init_checks {n : Nat} (ctx : InitCtx n) (nonce : Nat) (amp l g : Dec) :
    (∀ (auth : Nat) (s1 s2 s3 s4 : List Nat),
      l.p ≤ 19 → g.p ≤ 19 → l.val + g.val < 1 →
      ctx.pool_rent_exempt = true → ctx.pool_uninitialized = true →
      ctx.derived_authority = some auth →
      checkDup [] ctx.pool_key = Except.ok s1 →
      checkDup s1 ctx.lp_mint_key = Except.ok s2 →
      ctx.lp_mint_supply = 0 →
      ctx.lp_mint_mint_authority = some auth →
      ctx.lp_mint_freeze_authority = none →
      dupScan s2 ((List.finRange n).map ctx.token_mint_keys) = Except.ok s3 →
      dupScan s3 ((List.finRange n).map ctx.token_account_keys) = Except.ok s4 →
      initDecMax ctx - initDecMin ctx > MAX_DECIMAL_DIFFERENCE →
      processInit ctx nonce amp l g = Except.error PoolError.maxDecimalDifferenceExceeded) ∧
    (∀ auth : Nat,
      l.p ≤ 19 → g.p ≤ 19 → l.val + g.val < 1 →
      ctx.pool_rent_exempt = true → ctx.pool_uninitialized = true →
      ctx.derived_authority = some auth →
      ctx.lp_mint_supply = 0 →
      ctx.lp_mint_mint_authority = some auth →
      ctx.lp_mint_freeze_authority = none →
      ¬(initDecMax ctx - initDecMin ctx > MAX_DECIMAL_DIFFERENCE) →
      iterChecks (vaultCheck ctx auth) (List.finRange n) = Except.ok () →
      ¬((initKeyList ctx).filter (fun k => k != 0)).Nodup →
      processInit ctx nonce amp l g = Except.error PoolError.duplicateAccount) ∧
    (∀ st : PoolState n, processInit ctx nonce amp l g = Except.ok st →
      st.previous_depth = 0 ∧ st.is_paused = false ∧ st.fee_transition_ts = 0 ∧
      st.governance_transition_ts = 0 ∧
      st.lp_decimal_equalizer = initDecMax ctx - ctx.lp_mint_decimals ∧
      ∀ i, st.token_decimal_equalizers i = initDecMax ctx - ctx.token_mint_decimals i) := by
  refine ⟨?_, ?_, ?_⟩
  · intro auth s1 s2 s3 s4 hpl hpg hfee hrent hun hda hc1 hc2 hsup0 hauthm hfz hc3 hc4 hdiff
    have hadd := Dec.add_ok_of_val_lt_one l g hpl hpg hfee
    simp only [processInit, hadd]
    rw [if_neg (fun hc =>
      absurd ((Dec.add_ok_le_one_iff l g _ hadd).mp hc) (not_le.mpr hfee))]
    simp only [processInitChecked, hc1]
    rw [if_neg (by simp [hrent]), if_neg (by simp [hun])]
    simp only [hda, hc2]
    rw [if_neg (by simp [hsup0]), if_neg (by simp [hauthm]), if_neg (by simp [hfz])]
    simp only [hc3, hc4]
    rw [if_pos hdiff]
  · intro auth hpl hpg hfee hrent hun hda hsup0 hauthm hfz hdiffle hvc hdup
    have hadd := Dec.add_ok_of_val_lt_one l g hpl hpg hfee
    have hgate : processInit ctx nonce amp l g = processInitChecked ctx nonce amp l g := by
      simp only [processInit, hadd]
      rw [if_neg (fun hc =>
        absurd ((Dec.add_ok_le_one_iff l g _ hadd).mp hc) (not_le.mpr hfee))]
    rw [hgate]
    rcases hc1 : checkDup [] ctx.pool_key with e1 | s1
    · exact absurd hc1 (checkDup_nil_ok ctx.pool_key e1)
    · rcases hc2 : checkDup s1 ctx.lp_mint_key with e2 | s2
      · simp only [processInitChecked, hc1]
        rw [if_neg (by simp [hrent]), if_neg (by simp [hun])]
        simp only [hda, hc2]
        rw [checkDup_error_eq _ _ _ hc2]
      · rcases hc3 : dupScan s2 ((List.finRange n).map ctx.token_mint_keys) with e3 | s3
        · simp only [processInitChecked, hc1]
          rw [if_neg (by simp [hrent]), if_neg (by simp [hun])]
          simp only [hda, hc2]
          rw [if_neg (by simp [hsup0]), if_neg (by simp [hauthm]), if_neg (by simp [hfz])]
          simp only [hc3]
          rw [dupScan_error_eq _ _ _ hc3]
        · rcases hc4 : dupScan s3 ((List.finRange n).map ctx.token_account_keys) with e4 | s4
          · simp only [processInitChecked, hc1]
            rw [if_neg (by simp [hrent]), if_neg (by simp [hun])]
            simp only [hda, hc2]
            rw [if_neg (by simp [hsup0]), if_neg (by simp [hauthm]), if_neg (by simp [hfz])]
            simp only [hc3, hc4]
            rw [dupScan_error_eq _ _ _ hc4]
          · rcases hc5 : checkDup s4 ctx.governance_key with e5 | s5
            · simp only [processInitChecked, hc1]
              rw [if_neg (by simp [hrent]), if_neg (by simp [hun])]
              simp only [hda, hc2]
              rw [if_neg (by simp [hsup0]), if_neg (by simp [hauthm]),
                if_neg (by simp [hfz])]
              simp only [hc3, hc4]
              rw [if_neg hdiffle]
              simp only [hvc, hc5]
              rw [checkDup_error_eq _ _ _ hc5]
            · rcases hc6 : checkDup s5 ctx.governance_fee_key with e6 | s6
              · simp only [processInitChecked, hc1]
                rw [if_neg (by simp [hrent]), if_neg (by simp [hun])]
                simp only [hda, hc2]
                rw [if_neg (by simp [hsup0]), if_neg (by simp [hauthm]),
                  if_neg (by simp [hfz])]
                simp only [hc3, hc4]
                rw [if_neg hdiffle]
                simp only [hvc, hc5, hc6]
                rw [checkDup_error_eq _ _ _ hc6]
              · exfalso
                apply hdup
                have hfull : dupScan [] (initKeyList ctx) = Except.ok s6 := by
                  simp only [initKeyList, dupScan_append, dupScan, hc1, hc2, hc3, hc4,
                    hc5, hc6]
                exact dupScan_ok_nodup _ _ _ hfull
  · intro st h
    simp only [processInit, processInitChecked] at h
    repeat' split at h
    all_goals try exact Except.noConfusion h
    injection h with h'
    subst h'
    refine ⟨rfl, rfl, rfl, rfl, rfl, fun i => rfl⟩

/-- An Init context whose token mints have decimals 0 and 9 against an
LP mint with 6: the spread is 9. -/
def ctxDecDiff : InitCtx 2 :=
  { baseInitCtx with token_mint_decimals := fun i => if i.val = 0 then 0 else 9 }

/-- An Init context whose governance fee account key collides with the
first vault key. -/
def ctxDupKey : InitCtx 2 := { baseInitCtx with governance_fee_key := 14 }

/-- The record Init persists for the base context. -/
def initOkState : PoolState 2 where
  nonce := 5
  is_paused := false
  amp_factor := ⟨⟨1000, 0⟩, 0, ⟨1000, 0⟩, 0⟩
  lp_fee := ⟨⟨3, 3⟩⟩
  governance_fee := ⟨⟨1, 3⟩⟩
  lp_mint_key := 11
  lp_decimal_equalizer := initDecMax baseInitCtx - baseInitCtx.lp_mint_decimals
  token_mint_keys := baseInitCtx.token_mint_keys
  token_decimal_equalizers := fun i => initDecMax baseInitCtx - baseInitCtx.token_mint_decimals i
  token_keys := baseInitCtx.token_account_keys
  governance_key := 21
  governance_fee_key := 22
  prepared_governance_key := 0
  governance_transition_ts := 0
  prepared_lp_fee := PoolFee.default
  prepared_governance_fee := PoolFee.default
  fee_transition_ts := 0
  previous_depth := 0

/-- Witness for C9 at concrete contexts: a decimal spread of 9 fails,
a duplicated vault key fails, and a fully valid context persists the
expected record. -/
theorem claim9_init_checks_witness :
    processInit ctxDecDiff 5 ⟨1000, 0⟩ ⟨3, 3⟩ ⟨1, 3⟩ =
      Except.error PoolError.maxDecimalDifferenceExceeded ∧
    processInit ctxDupKey 5 ⟨1000, 0⟩ ⟨3, 3⟩ ⟨1, 3⟩ =
      Except.error PoolError.duplicateAccount ∧
    (initOkState.previous_depth = 0 ∧ initOkState.is_paused = false ∧
      initOkState.fee_transition_ts = 0 ∧ initOkState.governance_transition_ts = 0 ∧
      initOkState.lp_decimal_equalizer = initDecMax baseInitCtx - baseInitCtx.lp_mint_decimals ∧
      ∀ i, initOkState.token_decimal_equalizers i =
        initDecMax baseInitCtx - baseInitCtx.token_mint_decimals i) :=
  ⟨(claim9_init_checks ctxDecDiff 5 ⟨1000, 0⟩ ⟨3, 3⟩ ⟨1, 3⟩).1 5 [1] [11, 1]
      [13, 12, 11, 1] [15, 14, 13, 12, 11, 1] (by norm_num) (by norm_num)
      (by norm_num [Dec.val]) rfl rfl rfl (by rfl) (by rfl) rfl rfl rfl (by rfl) (by rfl)
      (by decide),
   (claim9_init_checks ctxDupKey 5 ⟨1000, 0⟩ ⟨3, 3⟩ ⟨1, 3⟩).2.1 5 (by norm_num)
      (by norm_num) (by norm_num [Dec.val]) rfl rfl rfl rfl rfl rfl (by decide) (by rfl)
      (by decide),
   (claim9_init_checks baseInitCtx 5 ⟨1000, 0⟩ ⟨3, 3⟩ ⟨1, 3⟩).2.2 initOkState (by rfl)⟩

/-- Claim C7: SwapExactOutput is rejected with InvalidInstructionData
when all exact outputs are zero, or the input index is out of range, or
the output at the input index is non-zero, or some exact output is not
strictly below the corresponding pool balance; and when the solver
answers a required input exceeding the maximum, it is rejected with
OutsideSpecifiedLimits.  Both rejections carry no effects (no transfer
happens before them in this model). -/
theorem claim7_swap_exact_output_checks {n : Nat} (inv : Invariant n) (ctx : DeFiCtx n)
    (s : PoolState n) (now : Int) (maxIn idx : Nat) (outs : Fin n → Nat)
    (hp : s.is_paused = false) (hv : ctx.Valid s) :
    (((∀ i, outs i = 0) ∨ n ≤ idx ∨ (∃ h : idx < n, outs ⟨idx, h⟩ ≠ 0) ∨
        (∃ i, ctx.pool_balances i ≤ outs i)) →
      processDefi inv ctx s (DeFiInstruction.swapExactOutput maxIn idx outs) now =
        Except.error PoolError.invalidInstructionData) ∧
    (∀ (h : idx < n) (u g dep : Nat),
      ¬(∀ i, outs i = 0) →
      outs ⟨idx, h⟩ = 0 →
      ¬(∃ i, outs i ≥ ctx.pool_balances i) →
      inv.swap_exact_output idx
          (fun i => toEqualized (outs i) (s.token_decimal_equalizers i))
          (fun i => toEqualized (ctx.pool_balances i) (s.token_decimal_equalizers i))
          (s.amp_factor.get now) s.lp_fee.get s.governance_fee.get
          (toEqualized ctx.lp_total_supply s.lp_decimal_equalizer) s.previous_depth =
        Except.ok (u, g, dep) →
      maxIn < fromEqualized u (s.token_decimal_equalizers ⟨idx, h⟩) →
      processDefi inv ctx s (DeFiInstruction.swapExactOutput maxIn idx outs) now =
        Except.error PoolError.outsideSpecifiedLimits) := by
  have hred := processDefi_eq_branch inv ctx s
    (DeFiInstruction.swapExactOutput maxIn idx outs) now
    (Or.inl hp) hv
  constructor
  · intro hcond
    rw [hred]
    have hbr : defiBranch inv ctx s (DeFiInstruction.swapExactOutput maxIn idx outs) now =
        Except.error PoolError.invalidInstructionData := by
      simp only [defiBranch]
      split
      · rfl
      · rename_i hall
        split
        · rename_i hlt
          split
          · rfl
          · rename_i hz
            split
            · rfl
            · rename_i hge
              exfalso
              rcases hcond with hc | hc | hc | hc
              · exact hall hc
              · omega
              · obtain ⟨hlt', hnz⟩ := hc
                exact hz hnz
              · exact hge (by obtain ⟨i, hi⟩ := hc; exact ⟨i, hi⟩)
        · rfl
    rw [hbr]
  · intro h u g dep hall hz hge horacle hmax
    rw [hred]
    have hbr : defiBranch inv ctx s (DeFiInstruction.swapExactOutput maxIn idx outs) now =
        Except.error PoolError.outsideSpecifiedLimits := by
      simp only [defiBranch]
      rw [if_neg hall]
      simp only [dif_pos h]
      rw [if_neg (show ¬outs ⟨idx, h⟩ ≠ 0 from by simp [hz])]
      rw [if_neg hge]
      rw [horacle]
      simp [hmax]
    rw [hbr]

/-- Witness for C7 at concrete inputs: an all-zero output vector is
rejected with InvalidInstructionData, and a solver answer of 1000000
against a maximum input of 5 is rejected with OutsideSpecifiedLimits. -/
theorem claim7_swap_exact_output_checks_witness :
    processDefi invZero baseDeFiCtx basePoolState
        (DeFiInstruction.swapExactOutput 5 0 (fun _ => 0)) 7 =
      Except.error PoolError.invalidInstructionData ∧
    processDefi invBig baseDeFiCtx basePoolState
        (DeFiInstruction.swapExactOutput 5 0 (fun i => if i.val = 1 then 10 else 0)) 7 =
      Except.error PoolError.outsideSpecifiedLimits :=
  ⟨(claim7_swap_exact_output_checks invZero baseDeFiCtx basePoolState 7 5 0 (fun _ => 0)
      rfl (by decide)).1 (Or.inl fun _ => rfl),
   (claim7_swap_exact_output_checks invBig baseDeFiCtx basePoolState 7 5 0
      (fun i => if i.val = 1 then 10 else 0) rfl (by decide)).2 (by decide) 1000000 0 0
      (by decide) rfl (by decide) rfl (by decide)⟩

/-- Witness for C10 at a concrete paused record: EnactFeeChange fails
identically on the paused and unpaused record, and SetPaused(false)
succeeds while paused. -/
theorem claim10_governance_ignores_pause_witness :
    (processGov baseGovCtx GovernanceInstruction.enactFeeChange 10 pausedState =
        Except.error PoolError.invalidEnact ↔
      processGov baseGovCtx GovernanceInstruction.enactFeeChange 10
          { pausedState with is_paused := false } =
        Except.error PoolError.invalidEnact) ∧
    processGov baseGovCtx (GovernanceInstruction.setPaused false) 10 pausedState =
      Except.ok { pausedState with is_paused := false } :=
  ⟨(claim10_governance_ignores_pause baseGovCtx pausedState 10 rfl).1 _ _,
   (claim10_governance_ignores_pause baseGovCtx pausedState 10 rfl).2 rfl rfl⟩

end Pool
